import Mathlib

/-! Shallow embedding of the goamz EC2 client fragment
(`vendor/github.com/goamz/goamz/ec2/ec2.go`) and of the file-info store test
suite (`store/sql_file_info_store_test.go`) of this repository, together with
theorems about the parameter-marshalling, error-building and test-harness
logic. Go maps become association lists with replacing update, Go integers
become `Int`/`Nat`, and the HTTP / XML / signing / randomness environment
becomes an explicit oracle record, so that every operation is a pure
function. -/

namespace Platform

/-- Go `map[string]string`, modelled as an association list whose update
operation replaces the binding of an existing key. -/
abbrev Params := List (String × String)

/-- Go map assignment `params[k] = v`: replace the existing binding of `k`,
or append a fresh one. -/
def pset : Params → String → String → Params
  | [], k, v => [(k, v)]
  | (q, u) :: rest, k, v => if q = k then (k, v) :: rest else (q, u) :: pset rest k v

/-- Go map lookup `params[k]` together with its presence bit. -/
def pget : Params → String → Option String
  | [], _ => none
  | (q, u) :: rest, k => if q = k then some u else pget rest k

/-- A guarded Go map assignment (`if cond { params[k] = v }`). -/
def psetIf (c : Prop) [Decidable c] (ps : Params) (k v : String) : Params :=
  if c then pset ps k v else ps

/-- Base-10 digits of a natural number, least significant first (the digit
loop underlying `Nat.toDigitsCore`, which implements `strconv.Itoa`). -/
def natRevDigits (n : Nat) : List Nat :=
  if h : n / 10 = 0 then [n % 10] else n % 10 :: natRevDigits (n / 10)
termination_by n
decreasing_by
  exact Nat.div_lt_self (Nat.pos_of_ne_zero (fun h0 => h (by simp [h0]))) (by norm_num)

/-- Reconstruct a number from its little-endian digit list. -/
def ofRevDigits : List Nat → Nat
  | [] => 0
  | d :: ds => d + 10 * ofRevDigits ds

/-- A Boolean list-prefix test, used to turn concrete string-key
disjointness facts into decidable side conditions. -/
def isPre (xs ys : List Char) : Bool :=
  match xs, ys with
  | [], _ => true
  | x :: xt, y :: yt => x = y && isPre xt yt
  | _, _ => false

/-! ### The EC2 `Filter` helper (`ec2.go` lines 61-92) -/

/-- Embeds `ec2.Filter`: a `map[string][]string` of filter names to values. -/
structure Filter where
  m : List (String × List String)

/-- Embeds `ec2.NewFilter`. -/
def NewFilter : Filter := ⟨[]⟩

/-- Embeds `Filter.Add`: append the values to the entry of `name`
(`f.m[name] = append(f.m[name], value...)`). -/
def Filter.Add (f : Filter) (name : String) (values : List String) : Filter :=
  if f.m.any (fun e => e.1 = name) then
    ⟨f.m.map (fun e => if e.1 = name then (e.1, e.2 ++ values) else e)⟩
  else ⟨f.m ++ [(name, values)]⟩

/-- Go map read `f.m[k]` (missing keys give the zero value `nil`). -/
def lookupF (m : List (String × List String)) (k : String) : List String :=
  match m.find? (fun e => decide (e.1 = k)) with
  | some e => e.2
  | none => []

/-- The key set of the filter map, as collected by the `for k := range f.m`
loop of `Filter.addParams`. -/
def filterKeys (f : Filter) : List String := f.m.map (fun e => e.1)

/-- Embeds `sort.StringSlice(a).Sort()`: the ascending arrangement of the keys. -/
def sortedFilterKeys (f : Filter) : List String :=
  (filterKeys f).mergeSort (fun a b => decide (a ≤ b))

/-- The inner loop `for j, v := range f.m[k]` of `Filter.addParams`. -/
def addFilterValues (pre : String) (vals : List String) (j : Nat) (params : Params) : Params :=
  match vals with
  | [] => params
  | v :: rest => addFilterValues pre rest (j + 1) (pset params ((pre ++ ".Value.") ++ Nat.repr (j + 1)) v)

/-- The outer loop `for i, k := range a` of `Filter.addParams`. -/
def emitFilterNames (m : List (String × List String)) (names : List String) (i : Nat)
    (params : Params) : Params :=
  match names with
  | [] => params
  | k :: rest =>
      emitFilterNames m rest (i + 1)
        (addFilterValues ("Filter." ++ Nat.repr (i + 1)) (lookupF m k) 0
          (pset params (("Filter." ++ Nat.repr (i + 1)) ++ ".Name") k))

/-- Embeds `Filter.addParams` on a possibly-nil `*Filter` receiver. -/
def Filter.addParams : Option Filter → Params → Params
  | none, params => params
  | some f, params => emitFilterNames f.m (sortedFilterKeys f) 0 params

/-! ### Request dispatching (`ec2.go` lines 97-227) -/

/-- Embeds `ec2.Error`. -/
structure ErrorE where
  StatusCode : Int
  Code : String
  Message : String
  RequestId : String

/-- Embeds `ec2.xmlErrors`, the XML error envelope. -/
structure XmlErrorsE where
  RequestId : String
  Errors : List ErrorE

/-- Embeds `ec2.buildError`, as a function of the HTTP status code, the HTTP status
line `r.Status`, and the envelope value left behind by decoding the body
into an `xmlErrors` (the zero envelope when the body does not decode). -/
def buildError (statusCode : Int) (status : String) (env : XmlErrorsE) : ErrorE :=
  let e :=
    match env.Errors with
    | [] => { StatusCode := 0, Code := "", Message := "", RequestId := "" : ErrorE }
    | e0 :: _ => e0
  let e := { e with RequestId := env.RequestId, StatusCode := statusCode }
  if e.Message = "" then { e with Message := status } else e

/-- Embeds `ec2.makeParams`. -/
def makeParams (action : String) : Params := pset [] "Action" action

/-- Embeds `ec2.multimap`: wrap each value of a `map[string]string` into a
singleton list, giving a `url.Values`. -/
def multimap (p : Params) : List (String × List String) :=
  p.map (fun kv => (kv.1, [kv.2]))

/-- The indexed loop of `ec2.addParamsList`, with explicit counter. -/
def addParamsListFrom (params : Params) (label : String) (ids : List String) (i : Nat) : Params :=
  match ids with
  | [] => params
  | v :: rest => addParamsListFrom (pset params ((label ++ ".") ++ Nat.repr (i + 1)) v) label rest (i + 1)

/-- Embeds `ec2.addParamsList`. -/
def addParamsList (params : Params) (label : String) (ids : List String) : Params :=
  addParamsListFrom params label ids 0

/-- Embeds `ec2.BlockDeviceMapping` (the fields used as request parameters). -/
structure BlockDeviceMapping where
  DeviceName : String
  VirtualName : String
  SnapshotId : String
  VolumeType : String
  VolumeSize : Int
  DeleteOnTermination : Bool
  NoDevice : Bool
  IOPS : Int

/-- The sub-keys a block device can emit, in a fixed order. -/
def bdmSubKeys : List String :=
  ["DeviceName", "VirtualName", "Ebs.SnapshotId", "Ebs.VolumeType", "Ebs.Iops",
   "Ebs.VolumeSize", "Ebs.DeleteOnTermination", "NoDevice"]

/-- The value a block device contributes at a given sub-key (`none` when the
corresponding field has its zero value and the sub-key is skipped). -/
def bdmSubValue (k : BlockDeviceMapping) (s : String) : Option String :=
  if s = "DeviceName" then (if k.DeviceName ≠ "" then some k.DeviceName else none)
  else if s = "VirtualName" then (if k.VirtualName ≠ "" then some k.VirtualName else none)
  else if s = "Ebs.SnapshotId" then (if k.SnapshotId ≠ "" then some k.SnapshotId else none)
  else if s = "Ebs.VolumeType" then (if k.VolumeType ≠ "" then some k.VolumeType else none)
  else if s = "Ebs.Iops" then (if k.IOPS ≠ 0 then some (toString k.IOPS) else none)
  else if s = "Ebs.VolumeSize" then (if k.VolumeSize ≠ 0 then some (toString k.VolumeSize) else none)
  else if s = "Ebs.DeleteOnTermination" then (if k.DeleteOnTermination then some "true" else none)
  else if s = "NoDevice" then (if k.NoDevice then some "true" else none)
  else none

/-- The body of the `for i, k := range blockdevices` loop of
`ec2.addBlockDeviceParams`: emit one block device under `pre`, one guarded
assignment per field in source order. -/
def bdmDevice (pre : String) (params : Params) (k : BlockDeviceMapping) : Params :=
  psetIf k.NoDevice
    (psetIf k.DeleteOnTermination
      (psetIf (k.VolumeSize ≠ 0)
        (psetIf (k.IOPS ≠ 0)
          (psetIf (k.VolumeType ≠ "")
            (psetIf (k.SnapshotId ≠ "")
              (psetIf (k.VirtualName ≠ "")
                (psetIf (k.DeviceName ≠ "") params (pre ++ "DeviceName") k.DeviceName)
                (pre ++ "VirtualName") k.VirtualName)
              (pre ++ "Ebs.SnapshotId") k.SnapshotId)
            (pre ++ "Ebs.VolumeType") k.VolumeType)
          (pre ++ "Ebs.Iops") (toString k.IOPS))
        (pre ++ "Ebs.VolumeSize") (toString k.VolumeSize))
      (pre ++ "Ebs.DeleteOnTermination") "true")
    (pre ++ "NoDevice") "true"

/-- Embeds `ec2.addBlockDeviceParams` with explicit loop counter. -/
def addBlockDeviceParamsFrom (prename : String) (params : Params)
    (blockdevices : List BlockDeviceMapping) (i : Nat) : Params :=
  match blockdevices with
  | [] => params
  | k :: rest =>
      addBlockDeviceParamsFrom prename
        (bdmDevice (prename ++ "BlockDeviceMapping." ++ Nat.repr (i + 1) ++ ".") params k)
        rest (i + 1)

/-- Embeds `ec2.addBlockDeviceParams`. -/
def addBlockDeviceParams (prename : String) (params : Params)
    (blockdevices : List BlockDeviceMapping) : Params :=
  addBlockDeviceParamsFrom prename params blockdevices 0

/-! ### RunInstances (`ec2.go` lines 235-536) -/

/-- Embeds `ec2.SecurityGroup` (parameter-relevant fields). -/
structure SecurityGroup where
  Id : String
  Name : String

/-- Embeds `ec2.IamInstanceProfile`. -/
structure IamInstanceProfile where
  ARN : String
  Id : String
  Name : String

/-- Embeds `ec2.RunInstancesOptions`. `UserData` is `none` for a nil byte slice. -/
structure RunInstancesOptions where
  ImageId : String
  MinCount : Int
  MaxCount : Int
  KeyName : String
  InstanceType : String
  SecurityGroups : List SecurityGroup
  KernelId : String
  RamdiskId : String
  UserData : Option (List Nat)
  AvailabilityZone : String
  PlacementGroupName : String
  Tenancy : String
  Monitoring : Bool
  SubnetId : String
  DisableAPITermination : Bool
  ShutdownBehavior : String
  PrivateIPAddress : String
  IamInstanceProfile : IamInstanceProfile
  BlockDevices : List BlockDeviceMapping
  EbsOptimized : Bool
  AssociatePublicIpAddress : Bool

/-- The security-group loop of the `NetworkInterface.0` branch of
`RunInstances`: only groups with a non-empty `Id` are emitted, with a
single counter `i`. -/
def nicSecurityGroups (params : Params) (groups : List SecurityGroup) (i : Nat) : Params :=
  match groups with
  | [] => params
  | g :: rest =>
      if g.Id ≠ "" then
        nicSecurityGroups (pset params ("NetworkInterface.0.SecurityGroupId." ++ Nat.repr i) g.Id)
          rest (i + 1)
      else nicSecurityGroups params rest i

/-- The security-group loop of the plain branch of `RunInstances`: groups
with an `Id` count with `i`, groups without with `j`. -/
def flatSecurityGroups (params : Params) (groups : List SecurityGroup) (i j : Nat) : Params :=
  match groups with
  | [] => params
  | g :: rest =>
      if g.Id ≠ "" then
        flatSecurityGroups (pset params ("SecurityGroupId." ++ Nat.repr i) g.Id) rest (i + 1) j
      else
        flatSecurityGroups (pset params ("SecurityGroup." ++ Nat.repr j) g.Name) rest i (j + 1)

/-- The `UserData` assignment of `RunInstances` (`nil` slice emits nothing);
`b64` is the standard base64 encoding. -/
def riUserData (b64 : List Nat → String) (options : RunInstancesOptions) (ps : Params) : Params :=
  match options.UserData with
  | none => ps
  | some ud => pset ps "UserData" (b64 ud)

/-- The guarded scalar assignments of `RunInstances` between `ClientToken`
and the subnet/security-group branch, in source order. -/
def riPreGroups (b64 : List Nat → String) (options : RunInstancesOptions) (ps : Params) : Params :=
  psetIf options.Monitoring
    (psetIf (options.Tenancy ≠ "")
      (psetIf (options.PlacementGroupName ≠ "")
        (psetIf (options.AvailabilityZone ≠ "")
          (riUserData b64 options
            (psetIf (options.RamdiskId ≠ "")
              (psetIf (options.KernelId ≠ "")
                (psetIf (options.KeyName ≠ "") ps "KeyName" options.KeyName)
                "KernelId" options.KernelId)
              "RamdiskId" options.RamdiskId))
          "Placement.AvailabilityZone" options.AvailabilityZone)
        "Placement.GroupName" options.PlacementGroupName)
      "Placement.Tenancy" options.Tenancy)
    "Monitoring.Enabled" "true"

/-- The subnet / security-group branch of `RunInstances` (`ec2.go`
lines 462-497). -/
def riSubnetGroups (options : RunInstancesOptions) (ps : Params) : Params :=
  if options.SubnetId ≠ "" ∧ options.AssociatePublicIpAddress then
    nicSecurityGroups
      (pset (pset (pset ps "NetworkInterface.0.DeviceIndex" "0")
          "NetworkInterface.0.AssociatePublicIpAddress" "true")
        "NetworkInterface.0.SubnetId" options.SubnetId)
      options.SecurityGroups 1
  else
    flatSecurityGroups (psetIf (options.SubnetId ≠ "") ps "SubnetId" options.SubnetId)
      options.SecurityGroups 1 1

/-- The guarded scalar assignments of `RunInstances` after the branch, in
source order. -/
def riPostGroups (options : RunInstancesOptions) (ps : Params) : Params :=
  psetIf options.EbsOptimized
    (psetIf (options.PrivateIPAddress ≠ "")
      (psetIf (options.ShutdownBehavior ≠ "")
        (psetIf options.DisableAPITermination
          (psetIf (options.IamInstanceProfile.Name ≠ "")
            (psetIf (options.IamInstanceProfile.ARN ≠ "") ps
              "IamInstanceProfile.Arn" options.IamInstanceProfile.ARN)
            "IamInstanceProfile.Name" options.IamInstanceProfile.Name)
          "DisableApiTermination" "true")
        "InstanceInitiatedShutdownBehavior" options.ShutdownBehavior)
      "PrivateIpAddress" options.PrivateIPAddress)
    "EbsOptimized" "true"

/-- Everything `RunInstances` adds to the parameter map after the
`ClientToken` assignment (`ec2.go` lines 436-517). -/
def riOptionalParams (b64 : List Nat → String) (options : RunInstancesOptions)
    (params : Params) : Params :=
  addBlockDeviceParams ""
    (riPostGroups options (riSubnetGroups options (riPreGroups b64 options params)))
    options.BlockDevices

/-- The `var min, max int` normalization block of `RunInstances`
(`ec2.go` lines 417-427). -/
def riMM (options : RunInstancesOptions) : Int × Int :=
  if options.MinCount = 0 ∧ options.MaxCount = 0 then (1, 1)
  else if options.MaxCount = 0 then (options.MinCount, options.MinCount)
  else (options.MinCount, options.MaxCount)

/-- The unconditional assignments of `RunInstances`, from `makeParams` up
to and including `ClientToken`. -/
def riCoreParams (options : RunInstancesOptions) (token : String) : Params :=
  pset (pset (pset (pset (pset (makeParams "RunInstances")
          "ImageId" options.ImageId)
        "InstanceType" options.InstanceType)
      "MinCount" (toString (riMM options).1))
    "MaxCount" (toString (riMM options).2))
  "ClientToken" token

/-- The full parameter map `RunInstances` builds before calling `query`,
given the already-generated client token. -/
def runInstancesParams (b64 : List Nat → String) (options : RunInstancesOptions)
    (token : String) : Params :=
  riOptionalParams b64 options (riCoreParams options token)

/-- The scalar keys `riOptionalParams` may set (proof bookkeeping). -/
def riScalarKeys : List String :=
  ["KeyName", "KernelId", "RamdiskId", "UserData", "Placement.AvailabilityZone",
   "Placement.GroupName", "Placement.Tenancy", "Monitoring.Enabled",
   "NetworkInterface.0.DeviceIndex", "NetworkInterface.0.AssociatePublicIpAddress",
   "NetworkInterface.0.SubnetId", "SubnetId", "IamInstanceProfile.Arn",
   "IamInstanceProfile.Name", "DisableApiTermination",
   "InstanceInitiatedShutdownBehavior", "PrivateIpAddress", "EbsOptimized"]

/-! ### The hex client token (`ec2.go` lines 527-536) -/

/-- Embeds `encoding/hex`'s digit table, `const hextable = "0123456789abcdef"`. -/
def hextable : String := "0123456789abcdef"

/-- The table as characters. -/
def hexChars : List Char := hextable.data

/-- Embeds `hex.Encode`: each byte `b` becomes `hextable[b>>4], hextable[b&0x0f]`. -/
def hexEncode : List Nat → List Char
  | [] => []
  | b :: rest => hexChars.getD (b / 16) '0' :: hexChars.getD (b % 16) '0' :: hexEncode rest

/-- Embeds `hex.EncodeToString`. -/
def hexEncodeToString (src : List Nat) : String := (hexEncode src).asString

/-! ### The query path (`ec2.go` lines 129-168), over an explicit oracle -/

/-- Embeds `aws.Auth` (opaque to `ec2.go`). -/
structure AuthM where
  AccessKey : String
  SecretKey : String

/-- The part of `EC2` that `query` reads. -/
structure EC2M where
  Auth : AuthM
  EC2Endpoint : String

/-- The outcome of `url.Parse`: the path and host of the endpoint. -/
structure UrlParts where
  Path : String
  Host : String

/-- An `*http.Response` as `query` consumes it. -/
structure HttpResponse (β : Type) where
  StatusCode : Int
  Status : String
  Body : β

/-- The error returned by `query`: either a plain Go error (URL parsing,
transport, XML decoding) or the `*ec2.Error` built from a failed response. -/
inductive QueryError where
  | goError (msg : String)
  | ec2Error (e : ErrorE)

/-- Observable network actions of one API call. -/
inductive Event where
  | httpGet (url : String)

/-- The environment of the client: URL parsing, the clock, `sign`,
`url.Values.Encode`, `URL.String`, the HTTP client, the XML decoder for
the response type `ρ` and for the error envelope, `crypto/rand`, and
base64.  `β` is the type of response bodies. -/
structure World (β ρ : Type) where
  parseUrl : String → Except String UrlParts
  nowUtcRfc3339 : String
  sign : AuthM → String → String → Params → String → Params
  encodeQuery : List (String × List String) → String
  urlString : UrlParts → String → String
  httpGet : String → Except String (HttpResponse β)
  decodeBody : β → Except String ρ
  decodeErrors : β → XmlErrorsE
  randRead : Nat → Except String (List Nat)
  b64Encode : List Nat → String

/-- The two unconditional assignments of `query`:
`params["Version"] = "2014-02-01"` and
`params["Timestamp"] = timeNow().In(time.UTC).Format(time.RFC3339)`. -/
def stampedParams {β ρ : Type} (w : World β ρ) (params : Params) : Params :=
  pset (pset params "Version" "2014-02-01") "Timestamp" w.nowUtcRfc3339

/-- The endpoint after the `if endpoint.Path == "" { endpoint.Path = "/" }`
fix-up. -/
def effEndpoint (ep0 : UrlParts) : UrlParts :=
  if ep0.Path = "" then { ep0 with Path := "/" } else ep0

/-- The URL `query` requests: the parsed endpoint with
`RawQuery = multimap(params).Encode()` after `sign(auth, "GET", path,
params, host)` has extended the stamped parameter map. -/
def queryUrl {β ρ : Type} (w : World β ρ) (ec2 : EC2M) (params : Params) (ep0 : UrlParts) :
    String :=
  w.urlString (effEndpoint ep0)
    (w.encodeQuery (multimap
      (w.sign ec2.Auth "GET" (effEndpoint ep0).Path (stampedParams w params)
        (effEndpoint ep0).Host)))

/-- Embeds `EC2.query`, returning the result together with the trace of issued
HTTP requests. -/
def query {β ρ : Type} (w : World β ρ) (ec2 : EC2M) (params : Params) :
    Except QueryError ρ × List Event :=
  match w.parseUrl ec2.EC2Endpoint with
  | Except.error e => (Except.error (QueryError.goError e), [])
  | Except.ok ep0 =>
      match w.httpGet (queryUrl w ec2 params ep0) with
      | Except.error e =>
          (Except.error (QueryError.goError e), [Event.httpGet (queryUrl w ec2 params ep0)])
      | Except.ok r =>
          if r.StatusCode ≠ 200 then
            (Except.error (QueryError.ec2Error
                (buildError r.StatusCode r.Status (w.decodeErrors r.Body))),
              [Event.httpGet (queryUrl w ec2 params ep0)])
          else
            match w.decodeBody r.Body with
            | Except.error e =>
                (Except.error (QueryError.goError e), [Event.httpGet (queryUrl w ec2 params ep0)])
            | Except.ok v => (Except.ok v, [Event.httpGet (queryUrl w ec2 params ep0)])

/-- Embeds `ec2.clientToken`: 32 bytes from `crypto/rand`, hex encoded. -/
def clientToken {β ρ : Type} (w : World β ρ) : Except String String :=
  match w.randRead 32 with
  | Except.error e => Except.error e
  | Except.ok buf => Except.ok (hexEncodeToString buf)

/-- Embeds `EC2.RunInstances`: build the parameter map, then `query`; on a client
token failure return the error without any request. -/
def RunInstances {β ρ : Type} (w : World β ρ) (ec2 : EC2M)
    (options : RunInstancesOptions) : Except QueryError ρ × List Event :=
  match clientToken w with
  | Except.error e => (Except.error (QueryError.goError e), [])
  | Except.ok token => query w ec2 (runInstancesParams w.b64Encode options token)

/-! ### The file-info store tests (`store/sql_file_info_store_test.go`) -/

/-- Embeds `model.FileInfo` (the fields the tests touch); Go zero values are `""`
and `0`. -/
structure FileInfo where
  Id : String
  CreatorId : String
  PostId : String
  Path : String
  DeleteAt : Int

/-- The zero `model.FileInfo`. -/
def emptyFileInfo : FileInfo := ⟨"", "", "", "", 0⟩

/-- An arbitrary store implementation behind `store.FileInfo()`: stateful
operations returning either an error or their data. -/
structure FileInfoStore (σ : Type) where
  Save : σ → FileInfo → σ × Except String FileInfo
  Get : σ → String → σ × Except String FileInfo
  GetForPost : σ → String → σ × Except String (List FileInfo)
  DeleteForPost : σ → String → σ × Except String Unit

/-- Embeds `TestFileInfoSaveGet` as a pass/fail function of the store under test;
`cid1`, `cid2` are the two `model.NewId()` creator ids. A `t.Fatal` (also
the one hidden in `Must`) is `false`. -/
def testFileInfoSaveGet {σ : Type} (st : FileInfoStore σ) (s0 : σ) (cid1 cid2 : String) : Bool :=
  match st.Save s0 { emptyFileInfo with CreatorId := cid1, Path := "file.txt" } with
  | (_, Except.error _) => false
  | (s1, Except.ok returned) =>
      if returned.Id.length = 0 then false
      else
        match st.Get s1 returned.Id with
        | (_, Except.error _) => false
        | (s2, Except.ok r2) =>
            if r2.Id ≠ returned.Id then false
            else
              match st.Save s2 { emptyFileInfo with CreatorId := cid2, Path := "file.txt", DeleteAt := 123 } with
              | (_, Except.error _) => false
              | (s3, Except.ok info2) =>
                  match st.Get s3 info2.Id with
                  | (_, Except.error _) => true
                  | (_, Except.ok _) => false

/-- Embeds `TestFileInfoDeleteForPost` as a pass/fail function; `userId`, `postId`
and `otherPostId` are the generated ids. -/
def testFileInfoDeleteForPost {σ : Type} (st : FileInfoStore σ) (s0 : σ)
    (userId postId otherPostId : String) : Bool :=
  match st.Save s0 { emptyFileInfo with PostId := postId, CreatorId := userId, Path := "file.txt" } with
  | (_, Except.error _) => false
  | (s1, Except.ok _) =>
      match st.Save s1 { emptyFileInfo with PostId := postId, CreatorId := userId, Path := "file.txt" } with
      | (_, Except.error _) => false
      | (s2, Except.ok _) =>
          match st.Save s2 { emptyFileInfo with PostId := postId, CreatorId := userId, Path := "file.txt", DeleteAt := 123 } with
          | (_, Except.error _) => false
          | (s3, Except.ok _) =>
              match st.Save s3 { emptyFileInfo with PostId := otherPostId, CreatorId := userId, Path := "file.txt" } with
              | (_, Except.error _) => false
              | (s4, Except.ok _) =>
                  match st.DeleteForPost s4 postId with
                  | (_, Except.error _) => false
                  | (s5, Except.ok _) =>
                      match st.GetForPost s5 postId with
                      | (_, Except.error _) => false
                      | (_, Except.ok infos) => infos.length = 0

/-- A small reference store used as a witness: state is the saved records
plus an id counter. -/
abbrev DemoState := List FileInfo × Nat

/-- A concrete in-memory store implementation for witnesses: `Save`
assigns fresh non-empty ids, `Get`/`GetForPost` hide soft-deleted rows,
`DeleteForPost` soft-deletes by post. -/
def demoStore : FileInfoStore DemoState where
  Save := fun s info =>
    let rec2 := { info with Id := "fid" ++ Nat.repr (s.2 + 1) }
    ((rec2 :: s.1, s.2 + 1), Except.ok rec2)
  Get := fun s fid =>
    match s.1.find? (fun f => f.Id == fid && f.DeleteAt == 0) with
    | some f => (s, Except.ok f)
    | none => (s, Except.error "not found")
  GetForPost := fun s pid =>
    (s, Except.ok (s.1.filter (fun f => f.PostId == pid && f.DeleteAt == 0)))
  DeleteForPost := fun s pid =>
    ((s.1.map (fun f => if f.PostId == pid then { f with DeleteAt := 1 } else f), s.2),
      Except.ok ())

/-- A concrete oracle environment for witnesses. -/
def demoWorld : World Unit Unit where
  parseUrl := fun _ => Except.ok { Path := "", Host := "h" }
  nowUtcRfc3339 := "2026-01-01T00:00:00Z"
  sign := fun _ _ _ params _ => params
  encodeQuery := fun _ => ""
  urlString := fun _ _ => "https://h/"
  httpGet := fun _ => Except.ok { StatusCode := 200, Status := "200 OK", Body := () }
  decodeBody := fun _ => Except.ok ()
  decodeErrors := fun _ => { RequestId := "", Errors := [] }
  randRead := fun n => Except.ok (List.replicate n 0)
  b64Encode := fun _ => ""

/-- An oracle environment whose transport fails, for error-path witnesses. -/
def demoWorldErr : World Unit Unit where
  parseUrl := fun _ => Except.ok { Path := "/p", Host := "h" }
  nowUtcRfc3339 := "2026-01-01T00:00:00Z"
  sign := fun _ _ _ params _ => params
  encodeQuery := fun _ => ""
  urlString := fun _ _ => "https://h/p"
  httpGet := fun _ =>
    Except.ok { StatusCode := 403, Status := "403 Forbidden", Body := () }
  decodeBody := fun _ => Except.error "eof"
  decodeErrors := fun _ =>
    { RequestId := "req-1",
      Errors := [{ StatusCode := 0, Code := "AuthFailure", Message := "", RequestId := "inner" }] }
  randRead := fun _ => Except.error "entropy"
  b64Encode := fun _ => ""

/-- A concrete region/credential pair for witnesses. -/
def demoEC2 : EC2M where
  Auth := { AccessKey := "ak", SecretKey := "sk" }
  EC2Endpoint := "https://ec2.us-east-1.amazonaws.com"

/-- A concrete block device mapping for witnesses. -/
def demoBdm : BlockDeviceMapping where
  DeviceName := "/dev/sda1"
  VirtualName := ""
  SnapshotId := "snap-1"
  VolumeType := ""
  VolumeSize := 8
  DeleteOnTermination := true
  NoDevice := false
  IOPS := 0

/-- A concrete filter for witnesses, built through `Filter.Add`. -/
def demoFilter : Filter :=
  (NewFilter.Add "vpc-id" ["vpc-1"]).Add "architecture" ["i386", "x86_64"]

/-- A small concrete `RunInstancesOptions` used by witnesses. -/
def demoOptions : RunInstancesOptions where
  ImageId := "ami-1"
  MinCount := 0
  MaxCount := 0
  KeyName := ""
  InstanceType := "m1.small"
  SecurityGroups := [{ Id := "sg-1", Name := "web" }, { Id := "", Name := "db" }]
  KernelId := ""
  RamdiskId := ""
  UserData := none
  AvailabilityZone := ""
  PlacementGroupName := ""
  Tenancy := ""
  Monitoring := false
  SubnetId := ""
  DisableAPITermination := false
  ShutdownBehavior := ""
  PrivateIPAddress := ""
  IamInstanceProfile := { ARN := "", Id := "", Name := "" }
  BlockDevices := []
  EbsOptimized := false
  AssociatePublicIpAddress := false

/-! ### Lemmas about the parameter map -/

theorem pget_pset_self (ps : Params) (k v : String) : pget (pset ps k v) k = some v := by
  induction ps with
  | nil => simp [pset, pget]
  | cons e rest ih =>
      obtain ⟨q, u⟩ := e
      by_cases h : q = k <;> simp [pset, pget, h, ih]

theorem pget_pset_ne (ps : Params) {k q : String} (v : String) (hne : q ≠ k) :
    pget (pset ps k v) q = pget ps q := by
  induction ps with
  | nil => simp [pset, pget, Ne.symm hne]
  | cons e rest ih =>
      obtain ⟨a, u⟩ := e
      by_cases h : a = k
      · subst h
        simp [pset, pget, Ne.symm hne]
      · by_cases h2 : a = q
        · subst h2
          simp [pset, pget, hne, h]
        · simp [pset, pget, h, h2, ih]

theorem pget_ite_pset (c : Prop) [Decidable c] (ps : Params) (k v : String) {q : String}
    (h : q ≠ k) : pget (if c then pset ps k v else ps) q = pget ps q := by
  split
  · exact pget_pset_ne ps v h
  · rfl

theorem pget_psetIf_ne (c : Prop) [Decidable c] (ps : Params) (k v : String) {q : String}
    (h : q ≠ k) : pget (psetIf c ps k v) q = pget ps q := by
  unfold psetIf
  split
  · exact pget_pset_ne ps v h
  · rfl

theorem pget_psetIf_self (c : Prop) [Decidable c] (ps : Params) (k v : String) :
    pget (psetIf c ps k v) k = if c then some v else pget ps k := by
  unfold psetIf
  split
  · rw [pget_pset_self]
  · rfl

/-! ### `Nat.repr` as a digit string: injectivity and shape -/

theorem toDigitsCore_eq (fuel : Nat) :
    ∀ (n : Nat) (ds : List Char), n < fuel →
      Nat.toDigitsCore 10 fuel n ds = ((natRevDigits n).map Nat.digitChar).reverse ++ ds := by
  induction fuel with
  | zero => intro n ds h; omega
  | succ fuel ih =>
      intro n ds _
      rw [natRevDigits, Nat.toDigitsCore]
      by_cases h10 : n / 10 = 0
      · simp [h10]
      · have hlt : n / 10 < fuel := by
          have h1 : 0 < n := by
            by_contra h0
            exact h10 (by omega)
          have := Nat.div_lt_self h1 (by norm_num : 1 < 10)
          omega
        simp only [h10, if_false, dif_neg]
        rw [ih (n / 10) _ hlt]
        simp

theorem repr_eq_digits (n : Nat) :
    Nat.repr n = (((natRevDigits n).map Nat.digitChar).reverse).asString := by
  show (Nat.toDigits 10 n).asString = _
  rw [Nat.toDigits, toDigitsCore_eq (n + 1) n [] (Nat.lt_succ_self n)]
  simp

theorem repr_data (n : Nat) :
    (Nat.repr n).data = ((natRevDigits n).map Nat.digitChar).reverse := by
  rw [repr_eq_digits]
  rfl

theorem natRevDigits_lt (n : Nat) : ∀ d ∈ natRevDigits n, d < 10 := by
  induction n using natRevDigits.induct with
  | case1 n h => rw [natRevDigits, dif_pos h]; simp; omega
  | case2 n h ih =>
      rw [natRevDigits, dif_neg h]
      intro d hd
      rcases List.mem_cons.mp hd with h1 | h1
      · omega
      · exact ih d h1

theorem ofRevDigits_natRevDigits (n : Nat) : ofRevDigits (natRevDigits n) = n := by
  induction n using natRevDigits.induct with
  | case1 n h =>
      rw [natRevDigits, dif_pos h]
      have : n % 10 = n := by omega
      simp [ofRevDigits, this]
  | case2 n h ih =>
      rw [natRevDigits, dif_neg h]
      simp only [ofRevDigits, ih]
      omega

theorem natRevDigits_inj {m n : Nat} (h : natRevDigits m = natRevDigits n) : m = n := by
  have := ofRevDigits_natRevDigits m
  rw [h, ofRevDigits_natRevDigits] at this
  omega

theorem digitChar_inj {a b : Nat} (ha : a < 10) (hb : b < 10)
    (h : Nat.digitChar a = Nat.digitChar b) : a = b := by
  interval_cases a <;> interval_cases b <;> revert h <;> decide

theorem digitChar_ne_dot {a : Nat} (ha : a < 10) : Nat.digitChar a ≠ '.' := by
  interval_cases a <;> decide

theorem map_digitChar_inj : ∀ {l₁ l₂ : List Nat}, (∀ d ∈ l₁, d < 10) →
    (∀ d ∈ l₂, d < 10) → l₁.map Nat.digitChar = l₂.map Nat.digitChar → l₁ = l₂ := by
  intro l₁
  induction l₁ with
  | nil => intro l₂ _ _ h; cases l₂ <;> simp_all
  | cons a as ih =>
      intro l₂ h1 h2 h
      cases l₂ with
      | nil => simp at h
      | cons b bs =>
          simp only [List.map_cons, List.cons.injEq] at h
          have hab : a = b := digitChar_inj (h1 a (by simp)) (h2 b (by simp)) h.1
          have : as = bs := ih (fun d hd => h1 d (by simp [hd])) (fun d hd => h2 d (by simp [hd])) h.2
          simp [hab, this]

theorem repr_inj {m n : Nat} (h : Nat.repr m = Nat.repr n) : m = n := by
  have hd : (Nat.repr m).data = (Nat.repr n).data := by rw [h]
  rw [repr_data, repr_data] at hd
  have hrev := List.reverse_injective hd
  exact natRevDigits_inj (map_digitChar_inj (natRevDigits_lt m) (natRevDigits_lt n) hrev)

theorem repr_data_ne_dot (n : Nat) : ∀ c ∈ (Nat.repr n).data, c ≠ '.' := by
  rw [repr_data]
  intro c hc
  rcases List.mem_reverse.mp hc with hc2
  rcases List.mem_map.mp hc2 with ⟨d, hd, rfl⟩
  exact digitChar_ne_dot (natRevDigits_lt n d hd)

/-! ### Disjointness of parameter keys -/

theorem isPre_total_of_append :
    ∀ {l₁ : List Char} {l₂ x y : List Char}, l₁ ++ x = l₂ ++ y →
      isPre l₁ l₂ = true ∨ isPre l₂ l₁ = true := by
  intro l₁
  induction l₁ with
  | nil => intro l₂ x y _; left; rfl
  | cons a as ih =>
      intro l₂ x y h
      cases l₂ with
      | nil => right; rfl
      | cons b bs =>
          simp only [List.cons_append, List.cons.injEq] at h
          rcases ih h.2 with h1 | h1
          · left; simp [isPre, h.1, h1]
          · right; simp [isPre, h.1.symm, h1]

theorem strAppend_ne (P Q : String)
    (h : isPre P.data Q.data = false ∧ isPre Q.data P.data = false) :
    ∀ r s : String, P ++ r ≠ Q ++ s := by
  intro r s heq
  have hd : P.data ++ r.data = Q.data ++ s.data := by
    have := congrArg String.data heq
    simpa [String.data_append] using this
  rcases isPre_total_of_append hd with h1 | h1
  · rw [h.1] at h1; cases h1
  · rw [h.2] at h1; cases h1

theorem strAppend_ne_right (P Q : String)
    (h : isPre P.data Q.data = false ∧ isPre Q.data P.data = false) (r : String) :
    P ++ r ≠ Q := by
  have := strAppend_ne P Q h r ""
  simpa [String.append_empty] using this

theorem strAppend_ne_left (P Q : String)
    (h : isPre P.data Q.data = false ∧ isPre Q.data P.data = false) (s : String) :
    P ≠ Q ++ s := by
  have := strAppend_ne P Q h "" s
  simpa [String.append_empty] using this

theorem strAppend_left_cancel {a x y : String} (h : a ++ x = a ++ y) : x = y := by
  have hd : a.data ++ x.data = a.data ++ y.data := by
    have := congrArg String.data h
    simpa [String.data_append] using this
  exact String.ext (List.append_cancel_left hd)

theorem append_ne_of_ne (base : String) {s t : String} (h : s ≠ t) :
    base ++ s ≠ base ++ t := fun he => h (strAppend_left_cancel he)

theorem append_repr_ne (base : String) {a b : Nat} (h : a ≠ b) :
    base ++ Nat.repr a ≠ base ++ Nat.repr b :=
  fun he => h (repr_inj (strAppend_left_cancel he))

theorem digits_dot_cancel :
    ∀ {d₁ : List Char} {d₂ r₁ r₂ : List Char}, (∀ c ∈ d₁, c ≠ '.') → (∀ c ∈ d₂, c ≠ '.') →
      d₁ ++ '.' :: r₁ = d₂ ++ '.' :: r₂ → d₁ = d₂ ∧ r₁ = r₂ := by
  intro d₁
  induction d₁ with
  | nil =>
      intro d₂ r₁ r₂ _ h2 h
      cases d₂ with
      | nil => simpa using h
      | cons b bs =>
          simp only [List.nil_append, List.cons_append, List.cons.injEq] at h
          exact absurd h.1.symm (h2 b (by simp))
  | cons a as ih =>
      intro d₂ r₁ r₂ h1 h2 h
      cases d₂ with
      | nil =>
          simp only [List.nil_append, List.cons_append, List.cons.injEq] at h
          exact absurd h.1 (h1 a (by simp))
      | cons b bs =>
          simp only [List.cons_append, List.cons.injEq] at h
          have := ih (fun c hc => h1 c (by simp [hc])) (fun c hc => h2 c (by simp [hc])) h.2
          simp [h.1, this.1, this.2]

/-- Keys of the shape `numeral ++ s` with `s` starting in a dot agree only
when both the numerals and the tails agree. -/
theorem reprAppend_cancel {m n : Nat} {s t : String}
    (hs : s.data.head? = some '.') (ht : t.data.head? = some '.')
    (h : Nat.repr m ++ s = Nat.repr n ++ t) : m = n ∧ s = t := by
  obtain ⟨sd, hsd⟩ : ∃ sd, s.data = '.' :: sd := by
    cases hcase : s.data with
    | nil => rw [hcase] at hs; cases hs
    | cons c cs =>
        rw [hcase] at hs
        exact ⟨cs, by simpa using congrArg (fun o => Option.getD o ' ' :: cs) hs⟩
  obtain ⟨td, htd⟩ : ∃ td, t.data = '.' :: td := by
    cases hcase : t.data with
    | nil => rw [hcase] at ht; cases ht
    | cons c cs =>
        rw [hcase] at ht
        exact ⟨cs, by simpa using congrArg (fun o => Option.getD o ' ' :: cs) ht⟩
  have hd : (Nat.repr m).data ++ '.' :: sd = (Nat.repr n).data ++ '.' :: td := by
    have := congrArg String.data h
    simpa [String.data_append, hsd, htd] using this
  have := digits_dot_cancel (repr_data_ne_dot m) (repr_data_ne_dot n) hd
  refine ⟨repr_inj (String.ext this.1), String.ext ?_⟩
  rw [hsd, htd, this.2]

/-- Keys of the shape `P ++ numeral ++ dotted-suffix` agree only when the
numerals and suffixes agree. -/
theorem idxSuffix_cancel {P : String} {a b : Nat} {s t : String}
    (hs : s.data.head? = some '.') (ht : t.data.head? = some '.')
    (h : (P ++ Nat.repr a) ++ s = (P ++ Nat.repr b) ++ t) : a = b ∧ s = t := by
  rw [String.append_assoc, String.append_assoc] at h
  exact reprAppend_cancel hs ht (strAppend_left_cancel h)

theorem dot_append_head (s : String) : ("." ++ s).data.head? = some '.' := by
  simp [String.data_append]

theorem dot_append_data (s : String) : ("." ++ s).data = '.' :: s.data := by
  simp [String.data_append]

/-! ### `addParamsList` -/

theorem addParamsListFrom_frame (label : String) :
    ∀ (ids : List String) (c : Nat) (ps : Params) (q : String),
      (∀ i, i < ids.length → q ≠ (label ++ ".") ++ Nat.repr (c + i + 1)) →
      pget (addParamsListFrom ps label ids c) q = pget ps q := by
  intro ids
  induction ids with
  | nil => intro c ps q _; rfl
  | cons v rest ih =>
      intro c ps q h
      simp only [addParamsListFrom]
      rw [ih (c + 1) _ q ?later]
      case later =>
        intro i hi
        have h2 := h (i + 1) (by simpa using Nat.succ_lt_succ hi)
        have : c + (i + 1) + 1 = c + 1 + i + 1 := by omega
        rw [this] at h2
        exact h2
      exact pget_pset_ne _ _ (by simpa using h 0 (by simp))

theorem addParamsListFrom_get (label : String) :
    ∀ (ids : List String) (c : Nat) (ps : Params) (i : Nat) (v : String),
      ids[i]? = some v →
      pget (addParamsListFrom ps label ids c) ((label ++ ".") ++ Nat.repr (c + i + 1)) = some v := by
  intro ids
  induction ids with
  | nil => intro c ps i v h; simp at h
  | cons v0 rest ih =>
      intro c ps i v h
      cases i with
      | zero =>
          simp only [List.getElem?_cons_zero, Option.some.injEq] at h
          subst h
          simp only [addParamsListFrom, Nat.add_zero]
          rw [addParamsListFrom_frame label rest (c + 1) _ _
            (fun i _ => append_repr_ne (label ++ ".") (by omega))]
          exact pget_pset_self ..
      | succ i =>
          simp only [List.getElem?_cons_succ] at h
          have h2 := ih (c + 1) (pset ps ((label ++ ".") ++ Nat.repr (c + 1)) v0) i v h
          have : c + 1 + i + 1 = c + (i + 1) + 1 := by omega
          rw [this] at h2
          simpa only [addParamsListFrom] using h2

/-! ### `addBlockDeviceParams` -/

theorem bdmDevice_frame (pre : String) (ps : Params) (k : BlockDeviceMapping) {q : String}
    (h : ∀ s ∈ bdmSubKeys, q ≠ pre ++ s) :
    pget (bdmDevice pre ps k) q = pget ps q := by
  simp only [bdmDevice]
  rw [pget_psetIf_ne _ _ _ _ (h "NoDevice" (by simp [bdmSubKeys])),
      pget_psetIf_ne _ _ _ _ (h "Ebs.DeleteOnTermination" (by simp [bdmSubKeys])),
      pget_psetIf_ne _ _ _ _ (h "Ebs.VolumeSize" (by simp [bdmSubKeys])),
      pget_psetIf_ne _ _ _ _ (h "Ebs.Iops" (by simp [bdmSubKeys])),
      pget_psetIf_ne _ _ _ _ (h "Ebs.VolumeType" (by simp [bdmSubKeys])),
      pget_psetIf_ne _ _ _ _ (h "Ebs.SnapshotId" (by simp [bdmSubKeys])),
      pget_psetIf_ne _ _ _ _ (h "VirtualName" (by simp [bdmSubKeys])),
      pget_psetIf_ne _ _ _ _ (h "DeviceName" (by simp [bdmSubKeys]))]

theorem bdmDevice_sub (pre : String) (ps : Params) (k : BlockDeviceMapping) :
    ∀ s ∈ bdmSubKeys,
      pget (bdmDevice pre ps k) (pre ++ s) = (bdmSubValue k s).or (pget ps (pre ++ s)) := by
  intro s hs
  have hmem : s = "DeviceName" ∨ s = "VirtualName" ∨ s = "Ebs.SnapshotId" ∨
      s = "Ebs.VolumeType" ∨ s = "Ebs.Iops" ∨ s = "Ebs.VolumeSize" ∨
      s = "Ebs.DeleteOnTermination" ∨ s = "NoDevice" := by
    simpa [bdmSubKeys] using hs
  simp only [bdmDevice]
  rcases hmem with rfl | rfl | rfl | rfl | rfl | rfl | rfl | rfl
  · rw [pget_psetIf_ne _ _ _ _ (append_ne_of_ne pre (by decide)),
        pget_psetIf_ne _ _ _ _ (append_ne_of_ne pre (by decide)),
        pget_psetIf_ne _ _ _ _ (append_ne_of_ne pre (by decide)),
        pget_psetIf_ne _ _ _ _ (append_ne_of_ne pre (by decide)),
        pget_psetIf_ne _ _ _ _ (append_ne_of_ne pre (by decide)),
        pget_psetIf_ne _ _ _ _ (append_ne_of_ne pre (by decide)),
        pget_psetIf_ne _ _ _ _ (append_ne_of_ne pre (by decide)),
        pget_psetIf_self,
        show bdmSubValue k "DeviceName" = (if k.DeviceName ≠ "" then some k.DeviceName else none) from rfl]
    split
    · exact rfl
    · rw [Option.none_or]
  · rw [pget_psetIf_ne _ _ _ _ (append_ne_of_ne pre (by decide)),
        pget_psetIf_ne _ _ _ _ (append_ne_of_ne pre (by decide)),
        pget_psetIf_ne _ _ _ _ (append_ne_of_ne pre (by decide)),
        pget_psetIf_ne _ _ _ _ (append_ne_of_ne pre (by decide)),
        pget_psetIf_ne _ _ _ _ (append_ne_of_ne pre (by decide)),
        pget_psetIf_ne _ _ _ _ (append_ne_of_ne pre (by decide)),
        pget_psetIf_self,
        show bdmSubValue k "VirtualName" = (if k.VirtualName ≠ "" then some k.VirtualName else none) from rfl]
    split
    · exact rfl
    · rw [Option.none_or,
          pget_psetIf_ne _ _ _ _ (append_ne_of_ne pre (by decide))]
  · rw [pget_psetIf_ne _ _ _ _ (append_ne_of_ne pre (by decide)),
        pget_psetIf_ne _ _ _ _ (append_ne_of_ne pre (by decide)),
        pget_psetIf_ne _ _ _ _ (append_ne_of_ne pre (by decide)),
        pget_psetIf_ne _ _ _ _ (append_ne_of_ne pre (by decide)),
        pget_psetIf_ne _ _ _ _ (append_ne_of_ne pre (by decide)),
        pget_psetIf_self,
        show bdmSubValue k "Ebs.SnapshotId" = (if k.SnapshotId ≠ "" then some k.SnapshotId else none) from rfl]
    split
    · exact rfl
    · rw [Option.none_or,
          pget_psetIf_ne _ _ _ _ (append_ne_of_ne pre (by decide)),
          pget_psetIf_ne _ _ _ _ (append_ne_of_ne pre (by decide))]
  · rw [pget_psetIf_ne _ _ _ _ (append_ne_of_ne pre (by decide)),
        pget_psetIf_ne _ _ _ _ (append_ne_of_ne pre (by decide)),
        pget_psetIf_ne _ _ _ _ (append_ne_of_ne pre (by decide)),
        pget_psetIf_ne _ _ _ _ (append_ne_of_ne pre (by decide)),
        pget_psetIf_self,
        show bdmSubValue k "Ebs.VolumeType" = (if k.VolumeType ≠ "" then some k.VolumeType else none) from rfl]
    split
    · exact rfl
    · rw [Option.none_or,
          pget_psetIf_ne _ _ _ _ (append_ne_of_ne pre (by decide)),
          pget_psetIf_ne _ _ _ _ (append_ne_of_ne pre (by decide)),
          pget_psetIf_ne _ _ _ _ (append_ne_of_ne pre (by decide))]
  · rw [pget_psetIf_ne _ _ _ _ (append_ne_of_ne pre (by decide)),
        pget_psetIf_ne _ _ _ _ (append_ne_of_ne pre (by decide)),
        pget_psetIf_ne _ _ _ _ (append_ne_of_ne pre (by decide)),
        pget_psetIf_self,
        show bdmSubValue k "Ebs.Iops" = (if k.IOPS ≠ 0 then some (toString k.IOPS) else none) from rfl]
    split
    · exact rfl
    · rw [Option.none_or,
          pget_psetIf_ne _ _ _ _ (append_ne_of_ne pre (by decide)),
          pget_psetIf_ne _ _ _ _ (append_ne_of_ne pre (by decide)),
          pget_psetIf_ne _ _ _ _ (append_ne_of_ne pre (by decide)),
          pget_psetIf_ne _ _ _ _ (append_ne_of_ne pre (by decide))]
  · rw [pget_psetIf_ne _ _ _ _ (append_ne_of_ne pre (by decide)),
        pget_psetIf_ne _ _ _ _ (append_ne_of_ne pre (by decide)),
        pget_psetIf_self,
        show bdmSubValue k "Ebs.VolumeSize" = (if k.VolumeSize ≠ 0 then some (toString k.VolumeSize) else none) from rfl]
    split
    · exact rfl
    · rw [Option.none_or,
          pget_psetIf_ne _ _ _ _ (append_ne_of_ne pre (by decide)),
          pget_psetIf_ne _ _ _ _ (append_ne_of_ne pre (by decide)),
          pget_psetIf_ne _ _ _ _ (append_ne_of_ne pre (by decide)),
          pget_psetIf_ne _ _ _ _ (append_ne_of_ne pre (by decide)),
          pget_psetIf_ne _ _ _ _ (append_ne_of_ne pre (by decide))]
  · rw [pget_psetIf_ne _ _ _ _ (append_ne_of_ne pre (by decide)),
        pget_psetIf_self,
        show bdmSubValue k "Ebs.DeleteOnTermination" = (if k.DeleteOnTermination then some "true" else none) from rfl]
    split
    · exact rfl
    · rw [Option.none_or,
          pget_psetIf_ne _ _ _ _ (append_ne_of_ne pre (by decide)),
          pget_psetIf_ne _ _ _ _ (append_ne_of_ne pre (by decide)),
          pget_psetIf_ne _ _ _ _ (append_ne_of_ne pre (by decide)),
          pget_psetIf_ne _ _ _ _ (append_ne_of_ne pre (by decide)),
          pget_psetIf_ne _ _ _ _ (append_ne_of_ne pre (by decide)),
          pget_psetIf_ne _ _ _ _ (append_ne_of_ne pre (by decide))]
  · rw [pget_psetIf_self,
        show bdmSubValue k "NoDevice" = (if k.NoDevice then some "true" else none) from rfl]
    split
    · exact rfl
    · rw [Option.none_or,
          pget_psetIf_ne _ _ _ _ (append_ne_of_ne pre (by decide)),
          pget_psetIf_ne _ _ _ _ (append_ne_of_ne pre (by decide)),
          pget_psetIf_ne _ _ _ _ (append_ne_of_ne pre (by decide)),
          pget_psetIf_ne _ _ _ _ (append_ne_of_ne pre (by decide)),
          pget_psetIf_ne _ _ _ _ (append_ne_of_ne pre (by decide)),
          pget_psetIf_ne _ _ _ _ (append_ne_of_ne pre (by decide)),
          pget_psetIf_ne _ _ _ _ (append_ne_of_ne pre (by decide))]

theorem bdmKey_ne {P : String} {a b : Nat} (s t : String) (hab : a ≠ b) :
    ((P ++ Nat.repr a) ++ ".") ++ s ≠ ((P ++ Nat.repr b) ++ ".") ++ t := by
  rw [String.append_assoc (P ++ Nat.repr a), String.append_assoc (P ++ Nat.repr b)]
  intro h
  exact hab (idxSuffix_cancel (dot_append_head s) (dot_append_head t) h).1

theorem addBDPFrom_frame (prename : String) :
    ∀ (bds : List BlockDeviceMapping) (c : Nat) (ps : Params) (q : String),
      (∀ i s, i < bds.length → s ∈ bdmSubKeys →
        q ≠ (prename ++ "BlockDeviceMapping." ++ Nat.repr (c + i + 1) ++ ".") ++ s) →
      pget (addBlockDeviceParamsFrom prename ps bds c) q = pget ps q := by
  intro bds
  induction bds with
  | nil => intro c ps q _; rfl
  | cons k rest ih =>
      intro c ps q h
      simp only [addBlockDeviceParamsFrom]
      rw [ih (c + 1) _ q ?later]
      case later =>
        intro i s hi hs
        have h2 := h (i + 1) s (by simpa using Nat.succ_lt_succ hi) hs
        have : c + (i + 1) + 1 = c + 1 + i + 1 := by omega
        rw [this] at h2
        exact h2
      exact bdmDevice_frame _ ps k (fun s hs => by simpa using h 0 s (by simp) hs)

theorem addBDPFrom_sub (prename : String) :
    ∀ (bds : List BlockDeviceMapping) (c : Nat) (ps : Params) (i : Nat)
      (k : BlockDeviceMapping) (s : String), bds[i]? = some k → s ∈ bdmSubKeys →
      pget (addBlockDeviceParamsFrom prename ps bds c)
          ((prename ++ "BlockDeviceMapping." ++ Nat.repr (c + i + 1) ++ ".") ++ s) =
        (bdmSubValue k s).or
          (pget ps ((prename ++ "BlockDeviceMapping." ++ Nat.repr (c + i + 1) ++ ".") ++ s)) := by
  intro bds
  induction bds with
  | nil => intro c ps i k s h _; simp at h
  | cons k0 rest ih =>
      intro c ps i k s h hs
      cases i with
      | zero =>
          simp only [List.getElem?_cons_zero, Option.some.injEq] at h
          simp only [addBlockDeviceParamsFrom, Nat.add_zero]
          rw [addBDPFrom_frame prename rest (c + 1) _ _
            (fun i s2 _ _ => bdmKey_ne s s2 (by omega)), ← h]
          exact bdmDevice_sub _ ps k0 s hs
      | succ i =>
          simp only [List.getElem?_cons_succ] at h
          have h2 := ih (c + 1)
            (bdmDevice (prename ++ "BlockDeviceMapping." ++ Nat.repr (c + 1) ++ ".") ps k0)
            i k s h hs
          have harith : c + 1 + i + 1 = c + (i + 1) + 1 := by omega
          rw [harith] at h2
          simp only [addBlockDeviceParamsFrom]
          rw [h2, bdmDevice_frame _ ps k0
            (fun s2 hs2 => Ne.symm (bdmKey_ne s2 s (by omega)))]

/-! ### `Filter.addParams` -/

theorem dotHead_append {p : String} (s : String) (hp : p.data.head? = some '.') :
    (p ++ s).data.head? = some '.' := by
  cases hd : p.data with
  | nil => rw [hd] at hp; cases hp
  | cons c cs =>
      rw [hd] at hp
      simp only [List.head?] at hp
      simp [String.data_append, hd, hp]

theorem filterNameKey_inj {a b : Nat}
    (h : ("Filter." ++ Nat.repr a) ++ ".Name" = ("Filter." ++ Nat.repr b) ++ ".Name") :
    a = b :=
  (idxSuffix_cancel (show (".Name" : String).data.head? = some '.' from rfl)
    (show (".Name" : String).data.head? = some '.' from rfl) h).1

theorem filterName_ne_value (a b c : Nat) :
    ("Filter." ++ Nat.repr a) ++ ".Name" ≠
      (("Filter." ++ Nat.repr b) ++ ".Value.") ++ Nat.repr c := by
  intro h
  rw [String.append_assoc ("Filter." ++ Nat.repr b)] at h
  have h2 := (idxSuffix_cancel (show (".Name" : String).data.head? = some '.' from rfl)
    (dotHead_append (Nat.repr c) (show (".Value." : String).data.head? = some '.' from rfl)) h).2
  exact strAppend_ne_left ".Name" ".Value." (by decide) (Nat.repr c) h2

theorem filterValueKey_inj {a b c d : Nat}
    (h : (("Filter." ++ Nat.repr a) ++ ".Value.") ++ Nat.repr c =
      (("Filter." ++ Nat.repr b) ++ ".Value.") ++ Nat.repr d) :
    a = b ∧ c = d := by
  rw [String.append_assoc ("Filter." ++ Nat.repr a),
    String.append_assoc ("Filter." ++ Nat.repr b)] at h
  have h2 := idxSuffix_cancel
    (dotHead_append (Nat.repr c) (show (".Value." : String).data.head? = some '.' from rfl))
    (dotHead_append (Nat.repr d) (show (".Value." : String).data.head? = some '.' from rfl)) h
  exact ⟨h2.1, repr_inj (strAppend_left_cancel h2.2)⟩

theorem addFilterValues_frame (pre : String) :
    ∀ (vals : List String) (c : Nat) (ps : Params) (q : String),
      (∀ j, j < vals.length → q ≠ (pre ++ ".Value.") ++ Nat.repr (c + j + 1)) →
      pget (addFilterValues pre vals c ps) q = pget ps q := by
  intro vals
  induction vals with
  | nil => intro c ps q _; rfl
  | cons v rest ih =>
      intro c ps q h
      simp only [addFilterValues]
      rw [ih (c + 1) _ q ?later]
      case later =>
        intro j hj
        have h2 := h (j + 1) (by simpa using Nat.succ_lt_succ hj)
        have : c + (j + 1) + 1 = c + 1 + j + 1 := by omega
        rw [this] at h2
        exact h2
      exact pget_pset_ne _ _ (by simpa using h 0 (by simp))

theorem addFilterValues_get (pre : String) :
    ∀ (vals : List String) (c : Nat) (ps : Params) (j : Nat) (v : String),
      vals[j]? = some v →
      pget (addFilterValues pre vals c ps) ((pre ++ ".Value.") ++ Nat.repr (c + j + 1)) = some v := by
  intro vals
  induction vals with
  | nil => intro c ps j v h; simp at h
  | cons v0 rest ih =>
      intro c ps j v h
      cases j with
      | zero =>
          simp only [List.getElem?_cons_zero, Option.some.injEq] at h
          subst h
          simp only [addFilterValues, Nat.add_zero]
          rw [addFilterValues_frame pre rest (c + 1) _ _
            (fun j _ => append_repr_ne (pre ++ ".Value.") (by omega))]
          exact pget_pset_self ..
      | succ j =>
          simp only [List.getElem?_cons_succ] at h
          have h2 := ih (c + 1) (pset ps ((pre ++ ".Value.") ++ Nat.repr (c + 1)) v0) j v h
          have : c + 1 + j + 1 = c + (j + 1) + 1 := by omega
          rw [this] at h2
          simpa only [addFilterValues] using h2

theorem emitFilterNames_frame (m : List (String × List String)) :
    ∀ (names : List String) (c : Nat) (ps : Params) (q : String),
      (∀ i k, names[i]? = some k →
        q ≠ ("Filter." ++ Nat.repr (c + i + 1)) ++ ".Name" ∧
        ∀ j, j < (lookupF m k).length →
          q ≠ (("Filter." ++ Nat.repr (c + i + 1)) ++ ".Value.") ++ Nat.repr (j + 1)) →
      pget (emitFilterNames m names c ps) q = pget ps q := by
  intro names
  induction names with
  | nil => intro c ps q _; rfl
  | cons k0 rest ih =>
      intro c ps q h
      simp only [emitFilterNames]
      rw [ih (c + 1) _ q ?later]
      case later =>
        intro i k hik
        have h2 := h (i + 1) k (by simpa using hik)
        have : c + (i + 1) + 1 = c + 1 + i + 1 := by omega
        rw [this] at h2
        exact h2
      have h0 := h 0 k0 (by simp)
      rw [addFilterValues_frame _ _ 0 _ _ (fun j hj => by simpa using h0.2 j hj)]
      exact pget_pset_ne _ _ (by simpa using h0.1)

theorem emitFilterNames_name (m : List (String × List String)) :
    ∀ (names : List String) (c : Nat) (ps : Params) (i : Nat) (k : String),
      names[i]? = some k →
      pget (emitFilterNames m names c ps) (("Filter." ++ Nat.repr (c + i + 1)) ++ ".Name") =
        some k := by
  intro names
  induction names with
  | nil => intro c ps i k h; simp at h
  | cons k0 rest ih =>
      intro c ps i k h
      cases i with
      | zero =>
          simp only [List.getElem?_cons_zero, Option.some.injEq] at h
          simp only [emitFilterNames, Nat.add_zero]
          rw [emitFilterNames_frame m rest (c + 1) _ _
            (fun i2 k2 _ => ⟨fun he => by have := filterNameKey_inj he; omega,
              fun j _ => filterName_ne_value (c + 1) (c + 1 + i2 + 1) (j + 1)⟩), ← h]
          rw [addFilterValues_frame _ _ 0 _ _
            (fun j _ => filterName_ne_value (c + 1) (c + 1) (0 + j + 1))]
          exact pget_pset_self ..
      | succ i =>
          simp only [List.getElem?_cons_succ] at h
          have h2 := ih (c + 1)
            (addFilterValues ("Filter." ++ Nat.repr (c + 1)) (lookupF m k0) 0
              (pset ps (("Filter." ++ Nat.repr (c + 1)) ++ ".Name") k0)) i k h
          have : c + 1 + i + 1 = c + (i + 1) + 1 := by omega
          rw [this] at h2
          simpa only [emitFilterNames] using h2

theorem emitFilterNames_value (m : List (String × List String)) :
    ∀ (names : List String) (c : Nat) (ps : Params) (i : Nat) (k : String) (j : Nat) (v : String),
      names[i]? = some k → (lookupF m k)[j]? = some v →
      pget (emitFilterNames m names c ps)
          ((("Filter." ++ Nat.repr (c + i + 1)) ++ ".Value.") ++ Nat.repr (j + 1)) = some v := by
  intro names
  induction names with
  | nil => intro c ps i k j v h _; simp at h
  | cons k0 rest ih =>
      intro c ps i k j v h hv
      cases i with
      | zero =>
          simp only [List.getElem?_cons_zero, Option.some.injEq] at h
          simp only [emitFilterNames, Nat.add_zero]
          rw [emitFilterNames_frame m rest (c + 1) _ _
            (fun i2 k2 _ => ⟨Ne.symm (filterName_ne_value (c + 1 + i2 + 1) (c + 1) (j + 1)),
              fun j2 _ => fun he => by
                have h3 := filterValueKey_inj he
                omega⟩)]
          subst h
          have h4 := addFilterValues_get ("Filter." ++ Nat.repr (c + 1)) (lookupF m k0) 0
            (pset ps (("Filter." ++ Nat.repr (c + 1)) ++ ".Name") k0) j v hv
          simpa using h4
      | succ i =>
          simp only [List.getElem?_cons_succ] at h
          have h2 := ih (c + 1)
            (addFilterValues ("Filter." ++ Nat.repr (c + 1)) (lookupF m k0) 0
              (pset ps (("Filter." ++ Nat.repr (c + 1)) ++ ".Name") k0)) i k j v h hv
          have : c + 1 + i + 1 = c + (i + 1) + 1 := by omega
          rw [this] at h2
          simpa only [emitFilterNames] using h2

theorem emitFilterNames_congr :
    ∀ (m1 m2 : List (String × List String)) (names : List String) (c : Nat) (ps : Params),
      (∀ k ∈ names, lookupF m1 k = lookupF m2 k) →
      emitFilterNames m1 names c ps = emitFilterNames m2 names c ps := by
  intro m1 m2 names
  induction names with
  | nil => intro c ps _; rfl
  | cons k0 rest ih =>
      intro c ps h
      simp only [emitFilterNames]
      rw [h k0 (by simp), ih (c + 1) _ (fun k hk => h k (by simp [hk]))]

theorem entry_unique {m : List (String × List String)}
    (hnd : (m.map (fun e => e.1)).Nodup) {e1 e2 : String × List String}
    (h1 : e1 ∈ m) (h2 : e2 ∈ m) (hk : e1.1 = e2.1) : e1 = e2 := by
  induction m with
  | nil => simp at h1
  | cons e0 rest ih =>
      simp only [List.map_cons, List.nodup_cons] at hnd
      rcases List.mem_cons.mp h1 with rfl | h1m
      · rcases List.mem_cons.mp h2 with rfl | h2m
        · rfl
        · exact absurd (hk ▸ List.mem_map_of_mem (fun e => e.1) h2m) hnd.1
      · rcases List.mem_cons.mp h2 with rfl | h2m
        · exact absurd (hk ▸ List.mem_map_of_mem (fun e => e.1) h1m) hnd.1
        · exact ih hnd.2 h1m h2m

theorem lookupF_perm {m1 m2 : List (String × List String)} (hp : m1.Perm m2)
    (hnd : (m1.map (fun e => e.1)).Nodup) (k : String) :
    lookupF m1 k = lookupF m2 k := by
  unfold lookupF
  cases hf : m1.find? (fun e => decide (e.1 = k)) with
  | none =>
      have hnone : m2.find? (fun e => decide (e.1 = k)) = none :=
        List.find?_eq_none.mpr (fun x hx => List.find?_eq_none.mp hf x (hp.mem_iff.mpr hx))
      rw [hnone]
  | some e =>
      have he1 : e ∈ m1 := List.mem_of_find?_eq_some hf
      have hpe : e.1 = k := by simpa using List.find?_some hf
      cases hf2 : m2.find? (fun e => decide (e.1 = k)) with
      | none =>
          exact absurd (List.find?_eq_none.mp hf2 e (hp.mem_iff.mp he1)) (by simp [hpe])
      | some e2 =>
          have h21 : e2 ∈ m1 := hp.mem_iff.mpr (List.mem_of_find?_eq_some hf2)
          have hpe2 : e2.1 = k := by simpa using List.find?_some hf2
          rw [entry_unique hnd he1 h21 (by rw [hpe, hpe2])]

theorem sortedFilterKeys_perm_eq {f g : Filter} (hp : f.m.Perm g.m) :
    sortedFilterKeys f = sortedFilterKeys g := by
  unfold sortedFilterKeys filterKeys
  haveI : IsAntisymm String (fun a b => a ≤ b) := ⟨fun _ _ => le_antisymm⟩
  exact List.eq_of_perm_of_sorted
    ((List.mergeSort_perm _ _).trans ((hp.map _).trans (List.mergeSort_perm _ _).symm))
    (List.sorted_mergeSort' _) (List.sorted_mergeSort' _)

/-! ### The security-group loops of `RunInstances` -/

theorem nicSecurityGroups_frame :
    ∀ (gs : List SecurityGroup) (c : Nat) (ps : Params) (q : String),
      (∀ m2, c ≤ m2 → q ≠ "NetworkInterface.0.SecurityGroupId." ++ Nat.repr m2) →
      pget (nicSecurityGroups ps gs c) q = pget ps q := by
  intro gs
  induction gs with
  | nil => intro c ps q _; rfl
  | cons g rest ih =>
      intro c ps q h
      simp only [nicSecurityGroups]
      split
      · rw [ih (c + 1) _ q (fun m2 hm2 => h m2 (by omega))]
        exact pget_pset_ne _ _ (h c (Nat.le_refl c))
      · exact ih c ps q h

theorem nicSecurityGroups_get :
    ∀ (gs : List SecurityGroup) (c : Nat) (ps : Params) (k : Nat) (g : SecurityGroup),
      (gs.filter (fun g0 => g0.Id ≠ ""))[k]? = some g →
      pget (nicSecurityGroups ps gs c)
        ("NetworkInterface.0.SecurityGroupId." ++ Nat.repr (c + k)) = some g.Id := by
  intro gs
  induction gs with
  | nil => intro c ps k g h; simp at h
  | cons g0 rest ih =>
      intro c ps k g h
      simp only [nicSecurityGroups]
      by_cases hid : g0.Id ≠ ""
      · rw [if_pos hid]
        cases k with
        | zero =>
            have hg : g0 = g := by
              have := h
              simp [List.filter_cons, hid] at this
              exact this
            rw [nicSecurityGroups_frame rest (c + 1) _ _
              (fun m2 hm2 => append_repr_ne _ (by omega))]
            rw [Nat.add_zero, ← hg]
            exact pget_pset_self ..
        | succ k =>
            have h2 : (rest.filter (fun g0 => g0.Id ≠ ""))[k]? = some g := by
              have := h
              simpa [List.filter_cons, hid] using this
            have h3 := ih (c + 1)
              (pset ps ("NetworkInterface.0.SecurityGroupId." ++ Nat.repr c) g0.Id) k g h2
            have : c + 1 + k = c + (k + 1) := by omega
            rw [this] at h3
            exact h3
      · rw [if_neg hid]
        have h2 : (rest.filter (fun g0 => g0.Id ≠ ""))[k]? = some g := by
          have := h
          simpa [List.filter_cons, hid] using this
        exact ih c ps k g h2

theorem flatSecurityGroups_frame :
    ∀ (gs : List SecurityGroup) (i j : Nat) (ps : Params) (q : String),
      (∀ m2, i ≤ m2 → q ≠ "SecurityGroupId." ++ Nat.repr m2) →
      (∀ m2, j ≤ m2 → q ≠ "SecurityGroup." ++ Nat.repr m2) →
      pget (flatSecurityGroups ps gs i j) q = pget ps q := by
  intro gs
  induction gs with
  | nil => intro i j ps q _ _; rfl
  | cons g rest ih =>
      intro i j ps q h1 h2
      simp only [flatSecurityGroups]
      split
      · rw [ih (i + 1) j _ q (fun m2 hm2 => h1 m2 (by omega)) h2]
        exact pget_pset_ne _ _ (h1 i (Nat.le_refl i))
      · rw [ih i (j + 1) _ q h1 (fun m2 hm2 => h2 m2 (by omega))]
        exact pget_pset_ne _ _ (h2 j (Nat.le_refl j))

theorem flatSecurityGroups_getId :
    ∀ (gs : List SecurityGroup) (i j : Nat) (ps : Params) (k : Nat) (g : SecurityGroup),
      (gs.filter (fun g0 => g0.Id ≠ ""))[k]? = some g →
      pget (flatSecurityGroups ps gs i j) ("SecurityGroupId." ++ Nat.repr (i + k)) = some g.Id := by
  intro gs
  induction gs with
  | nil => intro i j ps k g h; simp at h
  | cons g0 rest ih =>
      intro i j ps k g h
      simp only [flatSecurityGroups]
      by_cases hid : g0.Id ≠ ""
      · rw [if_pos hid]
        cases k with
        | zero =>
            have hg : g0 = g := by
              have := h
              simp [List.filter_cons, hid] at this
              exact this
            rw [flatSecurityGroups_frame rest (i + 1) j _ _
              (fun m2 hm2 => append_repr_ne _ (by omega))
              (fun m2 _ => Ne.symm (strAppend_ne "SecurityGroup." "SecurityGroupId."
                (by decide) (Nat.repr m2) (Nat.repr (i + 0))))]
            rw [Nat.add_zero, ← hg]
            exact pget_pset_self ..
        | succ k =>
            have h2 : (rest.filter (fun g0 => g0.Id ≠ ""))[k]? = some g := by
              have := h
              simpa [List.filter_cons, hid] using this
            have h3 := ih (i + 1) j (pset ps ("SecurityGroupId." ++ Nat.repr i) g0.Id) k g h2
            have : i + 1 + k = i + (k + 1) := by omega
            rw [this] at h3
            exact h3
      · rw [if_neg hid]
        have h2 : (rest.filter (fun g0 => g0.Id ≠ ""))[k]? = some g := by
          have := h
          simpa [List.filter_cons, hid] using this
        rw [ih i (j + 1) _ k g h2]

theorem flatSecurityGroups_getName :
    ∀ (gs : List SecurityGroup) (i j : Nat) (ps : Params) (k : Nat) (g : SecurityGroup),
      (gs.filter (fun g0 => g0.Id = ""))[k]? = some g →
      pget (flatSecurityGroups ps gs i j) ("SecurityGroup." ++ Nat.repr (j + k)) = some g.Name := by
  intro gs
  induction gs with
  | nil => intro i j ps k g h; simp at h
  | cons g0 rest ih =>
      intro i j ps k g h
      simp only [flatSecurityGroups]
      by_cases hid : g0.Id ≠ ""
      · rw [if_pos hid]
        have h2 : (rest.filter (fun g0 => g0.Id = ""))[k]? = some g := by
          have := h
          simpa [List.filter_cons, hid] using this
        rw [ih (i + 1) j _ k g h2]
      · rw [if_neg hid]
        have hid2 : g0.Id = "" := by simpa using hid
        cases k with
        | zero =>
            have hg : g0 = g := by
              have := h
              simp [List.filter_cons, hid2] at this
              exact this
            rw [flatSecurityGroups_frame rest i (j + 1) _ _
              (fun m2 _ => strAppend_ne "SecurityGroup." "SecurityGroupId."
                (by decide) (Nat.repr (j + 0)) (Nat.repr m2))
              (fun m2 hm2 => append_repr_ne _ (by omega))]
            rw [Nat.add_zero, ← hg]
            exact pget_pset_self ..
        | succ k =>
            have h2 : (rest.filter (fun g0 => g0.Id = ""))[k]? = some g := by
              have := h
              simpa [List.filter_cons, hid2] using this
            have h3 := ih i (j + 1) (pset ps ("SecurityGroup." ++ Nat.repr j) g0.Name) k g h2
            have : j + 1 + k = j + (k + 1) := by omega
            rw [this] at h3
            exact h3

/-! ### Framing `runInstancesParams` -/

theorem riUserData_frame (b64 : List Nat → String) (options : RunInstancesOptions)
    (ps : Params) {q : String} (h : q ≠ "UserData") :
    pget (riUserData b64 options ps) q = pget ps q := by
  unfold riUserData
  split
  · rfl
  · exact pget_pset_ne _ _ h

theorem riPreGroups_frame (b64 : List Nat → String) (options : RunInstancesOptions)
    (ps : Params) {q : String}
    (h1 : q ≠ "KeyName") (h2 : q ≠ "KernelId") (h3 : q ≠ "RamdiskId") (h4 : q ≠ "UserData")
    (h5 : q ≠ "Placement.AvailabilityZone") (h6 : q ≠ "Placement.GroupName")
    (h7 : q ≠ "Placement.Tenancy") (h8 : q ≠ "Monitoring.Enabled") :
    pget (riPreGroups b64 options ps) q = pget ps q := by
  unfold riPreGroups
  rw [pget_psetIf_ne _ _ _ _ h8, pget_psetIf_ne _ _ _ _ h7, pget_psetIf_ne _ _ _ _ h6,
      pget_psetIf_ne _ _ _ _ h5, riUserData_frame _ _ _ h4, pget_psetIf_ne _ _ _ _ h3,
      pget_psetIf_ne _ _ _ _ h2, pget_psetIf_ne _ _ _ _ h1]

theorem riPostGroups_frame (options : RunInstancesOptions) (ps : Params) {q : String}
    (h1 : q ≠ "IamInstanceProfile.Arn") (h2 : q ≠ "IamInstanceProfile.Name")
    (h3 : q ≠ "DisableApiTermination") (h4 : q ≠ "InstanceInitiatedShutdownBehavior")
    (h5 : q ≠ "PrivateIpAddress") (h6 : q ≠ "EbsOptimized") :
    pget (riPostGroups options ps) q = pget ps q := by
  unfold riPostGroups
  rw [pget_psetIf_ne _ _ _ _ h6, pget_psetIf_ne _ _ _ _ h5, pget_psetIf_ne _ _ _ _ h4,
      pget_psetIf_ne _ _ _ _ h3, pget_psetIf_ne _ _ _ _ h2, pget_psetIf_ne _ _ _ _ h1]

theorem riSubnetGroups_frame (options : RunInstancesOptions) (ps : Params) {q : String}
    (h1 : q ≠ "NetworkInterface.0.DeviceIndex")
    (h2 : q ≠ "NetworkInterface.0.AssociatePublicIpAddress")
    (h3 : q ≠ "NetworkInterface.0.SubnetId") (h4 : q ≠ "SubnetId")
    (h5 : ∀ r, q ≠ "NetworkInterface.0.SecurityGroupId." ++ r)
    (h6 : ∀ r, q ≠ "SecurityGroupId." ++ r) (h7 : ∀ r, q ≠ "SecurityGroup." ++ r) :
    pget (riSubnetGroups options ps) q = pget ps q := by
  unfold riSubnetGroups
  split
  · rw [nicSecurityGroups_frame _ _ _ _ (fun m2 _ => h5 (Nat.repr m2)),
        pget_pset_ne _ _ h3, pget_pset_ne _ _ h2, pget_pset_ne _ _ h1]
  · rw [flatSecurityGroups_frame _ _ _ _ _ (fun m2 _ => h6 (Nat.repr m2))
        (fun m2 _ => h7 (Nat.repr m2)),
      pget_psetIf_ne _ _ _ _ h4]

theorem riOptionalParams_frame (b64 : List Nat → String) (options : RunInstancesOptions)
    (ps : Params) {q : String} (hsc : q ∉ riScalarKeys)
    (hf1 : ∀ r, q ≠ "NetworkInterface.0.SecurityGroupId." ++ r)
    (hf2 : ∀ r, q ≠ "SecurityGroupId." ++ r)
    (hf3 : ∀ r, q ≠ "SecurityGroup." ++ r)
    (hf4 : ∀ r, q ≠ "BlockDeviceMapping." ++ r) :
    pget (riOptionalParams b64 options ps) q = pget ps q := by
  simp only [riScalarKeys, List.mem_cons, not_or, List.not_mem_nil] at hsc
  obtain ⟨k1, k2, k3, k4, k5, k6, k7, k8, k9, k10, k11, k12, k13, k14, k15, k16, k17, k18, -⟩ := hsc
  unfold riOptionalParams addBlockDeviceParams
  rw [addBDPFrom_frame "" options.BlockDevices 0 _ _ ?bdmside]
  case bdmside =>
    intro i s _ _
    rw [String.empty_append, String.append_assoc, String.append_assoc]
    exact hf4 (Nat.repr (0 + i + 1) ++ ("." ++ s))
  rw [riPostGroups_frame _ _ k13 k14 k15 k16 k17 k18,
      riSubnetGroups_frame _ _ k9 k10 k11 k12 hf1 hf2 hf3,
      riPreGroups_frame _ _ _ k1 k2 k3 k4 k5 k6 k7 k8]

theorem runInstancesParams_Action (b64 : List Nat → String) (options : RunInstancesOptions)
    (token : String) :
    pget (runInstancesParams b64 options token) "Action" = some "RunInstances" := by
  unfold runInstancesParams riCoreParams
  rw [riOptionalParams_frame _ _ _ (by decide)
        (fun r => Ne.symm (strAppend_ne_right _ _ (by decide) r))
        (fun r => Ne.symm (strAppend_ne_right _ _ (by decide) r))
        (fun r => Ne.symm (strAppend_ne_right _ _ (by decide) r))
        (fun r => Ne.symm (strAppend_ne_right _ _ (by decide) r)),
      pget_pset_ne _ _ (by decide), pget_pset_ne _ _ (by decide),
      pget_pset_ne _ _ (by decide), pget_pset_ne _ _ (by decide),
      pget_pset_ne _ _ (by decide)]
  unfold makeParams
  exact pget_pset_self ..

theorem runInstancesParams_MinCount (b64 : List Nat → String) (options : RunInstancesOptions)
    (token : String) :
    pget (runInstancesParams b64 options token) "MinCount" = some (toString (riMM options).1) := by
  unfold runInstancesParams riCoreParams
  rw [riOptionalParams_frame _ _ _ (by decide)
        (fun r => Ne.symm (strAppend_ne_right _ _ (by decide) r))
        (fun r => Ne.symm (strAppend_ne_right _ _ (by decide) r))
        (fun r => Ne.symm (strAppend_ne_right _ _ (by decide) r))
        (fun r => Ne.symm (strAppend_ne_right _ _ (by decide) r)),
      pget_pset_ne _ _ (by decide), pget_pset_ne _ _ (by decide)]
  exact pget_pset_self ..

theorem runInstancesParams_MaxCount (b64 : List Nat → String) (options : RunInstancesOptions)
    (token : String) :
    pget (runInstancesParams b64 options token) "MaxCount" = some (toString (riMM options).2) := by
  unfold runInstancesParams riCoreParams
  rw [riOptionalParams_frame _ _ _ (by decide)
        (fun r => Ne.symm (strAppend_ne_right _ _ (by decide) r))
        (fun r => Ne.symm (strAppend_ne_right _ _ (by decide) r))
        (fun r => Ne.symm (strAppend_ne_right _ _ (by decide) r))
        (fun r => Ne.symm (strAppend_ne_right _ _ (by decide) r)),
      pget_pset_ne _ _ (by decide)]
  exact pget_pset_self ..

theorem runInstancesParams_ClientToken (b64 : List Nat → String)
    (options : RunInstancesOptions) (token : String) :
    pget (runInstancesParams b64 options token) "ClientToken" = some token := by
  unfold runInstancesParams riCoreParams
  rw [riOptionalParams_frame _ _ _ (by decide)
        (fun r => Ne.symm (strAppend_ne_right _ _ (by decide) r))
        (fun r => Ne.symm (strAppend_ne_right _ _ (by decide) r))
        (fun r => Ne.symm (strAppend_ne_right _ _ (by decide) r))
        (fun r => Ne.symm (strAppend_ne_right _ _ (by decide) r))]
  exact pget_pset_self ..

/-! ### Hex encoding -/

theorem hexEncode_length : ∀ src : List Nat, (hexEncode src).length = 2 * src.length := by
  intro src
  induction src with
  | nil => rfl
  | cons b rest ih =>
      simp only [hexEncode, List.length_cons, ih]
      omega

theorem hexChars_getD_mem : ∀ d : Nat, d < 16 → hexChars.getD d '0' ∈ hexChars := by
  intro d hd
  interval_cases d <;> decide

theorem hexEncode_mem :
    ∀ src : List Nat, (∀ b ∈ src, b < 256) → ∀ c ∈ hexEncode src, c ∈ hexChars := by
  intro src
  induction src with
  | nil => intro _ c hc; simp [hexEncode] at hc
  | cons b rest ih =>
      intro h c hc
      simp only [hexEncode, List.mem_cons] at hc
      rcases hc with rfl | rfl | hc
      · exact hexChars_getD_mem _ (by have := h b (by simp); omega)
      · exact hexChars_getD_mem _ (by omega)
      · exact ih (fun x hx => h x (by simp [hx])) c hc

/-! ### The query dispatch path -/

theorem query_trace_le_one {β ρ : Type} (w : World β ρ) (ec2 : EC2M) (params : Params) :
    (query w ec2 params).2.length ≤ 1 := by
  simp only [query]
  split
  · simp
  · split
    · simp
    · split
      · simp
      · split <;> simp

theorem buildError_fields (sc : Int) (st : String) (env : XmlErrorsE) :
    (buildError sc st env).StatusCode = sc ∧
    (buildError sc st env).RequestId = env.RequestId ∧
    (env.Errors = [] → (buildError sc st env).Code = "" ∧ (buildError sc st env).Message = st) ∧
    (∀ e0 rest, env.Errors = e0 :: rest →
      (buildError sc st env).Code = e0.Code ∧
      (buildError sc st env).Message = if e0.Message = "" then st else e0.Message) := by
  obtain ⟨rid, errs⟩ := env
  cases errs with
  | nil =>
      refine ⟨?_, ?_, ?_, ?_⟩
      · simp [buildError]
      · simp [buildError]
      · intro _
        constructor <;> simp [buildError]
      · intro e0 rest h0
        simp at h0
  | cons e0 rest =>
      refine ⟨?_, ?_, ?_, ?_⟩
      · by_cases hm : e0.Message = "" <;> simp [buildError, hm]
      · by_cases hm : e0.Message = "" <;> simp [buildError, hm]
      · intro h0
        simp at h0
      · intro e1 rest1 h1
        obtain ⟨rfl, rfl⟩ : e0 = e1 ∧ rest = rest1 := by simpa using h1
        constructor
        · by_cases hm : e0.Message = "" <;> simp [buildError, hm]
        · by_cases hm : e0.Message = "" <;> simp [buildError, hm]

theorem pget_riCoreParams_none (options : RunInstancesOptions) (token : String) {q : String}
    (h1 : q ≠ "Action") (h2 : q ≠ "ImageId") (h3 : q ≠ "InstanceType") (h4 : q ≠ "MinCount")
    (h5 : q ≠ "MaxCount") (h6 : q ≠ "ClientToken") :
    pget (riCoreParams options token) q = none := by
  unfold riCoreParams makeParams
  rw [pget_pset_ne _ _ h6, pget_pset_ne _ _ h5, pget_pset_ne _ _ h4, pget_pset_ne _ _ h3,
      pget_pset_ne _ _ h2, pget_pset_ne _ _ h1]
  rfl

theorem pget_runInstancesParams_to_subnet (b64 : List Nat → String)
    (options : RunInstancesOptions) (token : String) {q : String}
    (hpost1 : q ≠ "IamInstanceProfile.Arn") (hpost2 : q ≠ "IamInstanceProfile.Name")
    (hpost3 : q ≠ "DisableApiTermination") (hpost4 : q ≠ "InstanceInitiatedShutdownBehavior")
    (hpost5 : q ≠ "PrivateIpAddress") (hpost6 : q ≠ "EbsOptimized")
    (hbdm : ∀ r, q ≠ "BlockDeviceMapping." ++ r) :
    pget (runInstancesParams b64 options token) q =
      pget (riSubnetGroups options (riPreGroups b64 options (riCoreParams options token))) q := by
  unfold runInstancesParams riOptionalParams addBlockDeviceParams
  rw [addBDPFrom_frame "" options.BlockDevices 0 _ _ ?bdmside]
  case bdmside =>
    intro i s _ _
    rw [String.empty_append, String.append_assoc, String.append_assoc]
    exact hbdm (Nat.repr (0 + i + 1) ++ ("." ++ s))
  rw [riPostGroups_frame _ _ hpost1 hpost2 hpost3 hpost4 hpost5 hpost6]

theorem riSubnetGroups_pos_facts (options : RunInstancesOptions) (ps : Params)
    (hc : options.SubnetId ≠ "" ∧ options.AssociatePublicIpAddress) :
    pget (riSubnetGroups options ps) "NetworkInterface.0.DeviceIndex" = some "0" ∧
    pget (riSubnetGroups options ps) "NetworkInterface.0.AssociatePublicIpAddress" =
      some "true" ∧
    pget (riSubnetGroups options ps) "NetworkInterface.0.SubnetId" = some options.SubnetId ∧
    pget (riSubnetGroups options ps) "SubnetId" = pget ps "SubnetId" ∧
    (∀ k g, (options.SecurityGroups.filter (fun g0 => g0.Id ≠ ""))[k]? = some g →
      pget (riSubnetGroups options ps)
        ("NetworkInterface.0.SecurityGroupId." ++ Nat.repr (k + 1)) = some g.Id) ∧
    (∀ n, pget (riSubnetGroups options ps) ("SecurityGroupId." ++ Nat.repr n) =
      pget ps ("SecurityGroupId." ++ Nat.repr n)) ∧
    (∀ n, pget (riSubnetGroups options ps) ("SecurityGroup." ++ Nat.repr n) =
      pget ps ("SecurityGroup." ++ Nat.repr n)) := by
  unfold riSubnetGroups
  rw [if_pos hc]
  refine ⟨?_, ?_, ?_, ?_, ?_, ?_, ?_⟩
  · rw [nicSecurityGroups_frame _ _ _ _
        (fun m2 _ => strAppend_ne_left _ _ (by decide) (Nat.repr m2)),
      pget_pset_ne _ _ (by decide), pget_pset_ne _ _ (by decide)]
    exact pget_pset_self ..
  · rw [nicSecurityGroups_frame _ _ _ _
        (fun m2 _ => strAppend_ne_left _ _ (by decide) (Nat.repr m2)),
      pget_pset_ne _ _ (by decide)]
    exact pget_pset_self ..
  · rw [nicSecurityGroups_frame _ _ _ _
        (fun m2 _ => strAppend_ne_left _ _ (by decide) (Nat.repr m2))]
    exact pget_pset_self ..
  · rw [nicSecurityGroups_frame _ _ _ _
        (fun m2 _ => strAppend_ne_left _ _ (by decide) (Nat.repr m2)),
      pget_pset_ne _ _ (by decide), pget_pset_ne _ _ (by decide), pget_pset_ne _ _ (by decide)]
  · intro k g hkg
    have h2 := nicSecurityGroups_get options.SecurityGroups 1
      (pset (pset (pset ps "NetworkInterface.0.DeviceIndex" "0")
          "NetworkInterface.0.AssociatePublicIpAddress" "true")
        "NetworkInterface.0.SubnetId" options.SubnetId) k g hkg
    have harith : 1 + k = k + 1 := by omega
    rw [harith] at h2
    exact h2
  · intro n
    rw [nicSecurityGroups_frame _ _ _ _
        (fun m2 _ => strAppend_ne _ _ (by decide) (Nat.repr n) (Nat.repr m2)),
      pget_pset_ne _ _ (strAppend_ne_right _ _ (by decide) (Nat.repr n)),
      pget_pset_ne _ _ (strAppend_ne_right _ _ (by decide) (Nat.repr n)),
      pget_pset_ne _ _ (strAppend_ne_right _ _ (by decide) (Nat.repr n))]
  · intro n
    rw [nicSecurityGroups_frame _ _ _ _
        (fun m2 _ => strAppend_ne _ _ (by decide) (Nat.repr n) (Nat.repr m2)),
      pget_pset_ne _ _ (strAppend_ne_right _ _ (by decide) (Nat.repr n)),
      pget_pset_ne _ _ (strAppend_ne_right _ _ (by decide) (Nat.repr n)),
      pget_pset_ne _ _ (strAppend_ne_right _ _ (by decide) (Nat.repr n))]

theorem riSubnetGroups_neg_facts (options : RunInstancesOptions) (ps : Params)
    (hc : ¬(options.SubnetId ≠ "" ∧ options.AssociatePublicIpAddress)) :
    (∀ k g, (options.SecurityGroups.filter (fun g0 => g0.Id ≠ ""))[k]? = some g →
      pget (riSubnetGroups options ps) ("SecurityGroupId." ++ Nat.repr (k + 1)) = some g.Id) ∧
    (∀ k g, (options.SecurityGroups.filter (fun g0 => g0.Id = ""))[k]? = some g →
      pget (riSubnetGroups options ps) ("SecurityGroup." ++ Nat.repr (k + 1)) = some g.Name) ∧
    (∀ n, pget (riSubnetGroups options ps)
        ("NetworkInterface.0.SecurityGroupId." ++ Nat.repr n) =
      pget ps ("NetworkInterface.0.SecurityGroupId." ++ Nat.repr n)) := by
  unfold riSubnetGroups
  rw [if_neg hc]
  refine ⟨?_, ?_, ?_⟩
  · intro k g hkg
    have h2 := flatSecurityGroups_getId options.SecurityGroups 1 1
      (psetIf (options.SubnetId ≠ "") ps "SubnetId" options.SubnetId) k g hkg
    have harith : 1 + k = k + 1 := by omega
    rw [harith] at h2
    exact h2
  · intro k g hkg
    have h2 := flatSecurityGroups_getName options.SecurityGroups 1 1
      (psetIf (options.SubnetId ≠ "") ps "SubnetId" options.SubnetId) k g hkg
    have harith : 1 + k = k + 1 := by omega
    rw [harith] at h2
    exact h2
  · intro n
    rw [flatSecurityGroups_frame _ _ _ _ _
        (fun m2 _ => strAppend_ne _ _ (by decide) (Nat.repr n) (Nat.repr m2))
        (fun m2 _ => strAppend_ne _ _ (by decide) (Nat.repr n) (Nat.repr m2)),
      pget_psetIf_ne _ _ _ _ (strAppend_ne_right _ _ (by decide) (Nat.repr n))]

/-! ### Claim theorems -/

/-- C1: for every parameter map and response type, `EC2.query` adds
`Version=2014-02-01` and the UTC RFC3339 timestamp to the map, signs the
request, issues the HTTP GET against the region endpoint with the flattened
parameters as the query string (`queryUrl`), and when the status is 200
decodes the XML body into the response struct, returning the decoder's
error if decoding fails. -/
theorem query_follows_steps {β ρ : Type} (w : World β ρ) (ec2 : EC2M) (params : Params)
    (ep0 : UrlParts) (hparse : w.parseUrl ec2.EC2Endpoint = Except.ok ep0) :
    pget (stampedParams w params) "Version" = some "2014-02-01" ∧
    pget (stampedParams w params) "Timestamp" = some w.nowUtcRfc3339 ∧
    (∀ e, w.httpGet (queryUrl w ec2 params ep0) = Except.error e →
      query w ec2 params =
        (Except.error (QueryError.goError e), [Event.httpGet (queryUrl w ec2 params ep0)])) ∧
    (∀ r, w.httpGet (queryUrl w ec2 params ep0) = Except.ok r → r.StatusCode = 200 →
      query w ec2 params =
        ((match w.decodeBody r.Body with
          | Except.error e => Except.error (QueryError.goError e)
          | Except.ok v => (Except.ok v : Except QueryError ρ)),
         [Event.httpGet (queryUrl w ec2 params ep0)])) := by
  refine ⟨?_, ?_, ?_, ?_⟩
  · unfold stampedParams
    rw [pget_pset_ne _ _ (by decide)]
    exact pget_pset_self ..
  · exact pget_pset_self ..
  · intro e he
    simp only [query, hparse, he]
  · intro r hr h200
    simp only [query, hparse, hr]
    rw [if_neg (by simp [h200])]
    cases w.decodeBody r.Body <;> rfl

theorem query_follows_steps_witness :
    pget (stampedParams demoWorld []) "Version" = some "2014-02-01" :=
  (query_follows_steps demoWorld demoEC2 [] { Path := "", Host := "h" } rfl).1

/-- C2: for every non-200 response, `query` returns the `*Error` built by
`buildError`: fields from the first error of the envelope (zero-valued when
the envelope has none), `RequestId` from the envelope, `StatusCode` from the
HTTP response, `Message` falling back to the HTTP status line, and the
response struct is never populated. -/
theorem query_non200_builds_error {β ρ : Type} (w : World β ρ) (ec2 : EC2M) (params : Params)
    (ep0 : UrlParts) (r : HttpResponse β)
    (hparse : w.parseUrl ec2.EC2Endpoint = Except.ok ep0)
    (hget : w.httpGet (queryUrl w ec2 params ep0) = Except.ok r)
    (hst : r.StatusCode ≠ 200) :
    query w ec2 params =
      (Except.error (QueryError.ec2Error
          (buildError r.StatusCode r.Status (w.decodeErrors r.Body))),
        [Event.httpGet (queryUrl w ec2 params ep0)]) ∧
    (∀ (sc : Int) (st : String) (env : XmlErrorsE),
      (buildError sc st env).StatusCode = sc ∧
      (buildError sc st env).RequestId = env.RequestId ∧
      (env.Errors = [] → (buildError sc st env).Code = "" ∧ (buildError sc st env).Message = st) ∧
      (∀ e0 rest, env.Errors = e0 :: rest →
        (buildError sc st env).Code = e0.Code ∧
        (buildError sc st env).Message = if e0.Message = "" then st else e0.Message)) ∧
    (∀ v : ρ, (query w ec2 params).1 ≠ Except.ok v) := by
  have hq : query w ec2 params =
      (Except.error (QueryError.ec2Error
          (buildError r.StatusCode r.Status (w.decodeErrors r.Body))),
        [Event.httpGet (queryUrl w ec2 params ep0)]) := by
    simp only [query, hparse, hget]
    rw [if_pos hst]
  refine ⟨hq, fun sc st env => buildError_fields sc st env, ?_⟩
  intro v
  rw [hq]
  simp

theorem query_non200_builds_error_witness :
    (query demoWorldErr demoEC2 []).1 ≠ Except.ok () :=
  (query_non200_builds_error demoWorldErr demoEC2 []
    { Path := "/p", Host := "h" }
    { StatusCode := 403, Status := "403 Forbidden", Body := () }
    rfl rfl (by decide)).2.2 ()

/-- C5: the client has no retry logic: one `query` call issues at most one
HTTP GET and never re-sends after a failure, `RunInstances` likewise; each
operation starts from `makeParams`, whose only key is `Action` set to the
operation name (`RunInstances` ends with `Action = "RunInstances"`). -/
theorem client_no_retry {β ρ : Type} (w : World β ρ) (ec2 : EC2M) (params : Params)
    (action : String) (options : RunInstancesOptions) (b64 : List Nat → String)
    (token : String) :
    (query w ec2 params).2.length ≤ 1 ∧
    (RunInstances w ec2 options).2.length ≤ 1 ∧
    pget (makeParams action) "Action" = some action ∧
    (∀ k, k ≠ "Action" → pget (makeParams action) k = none) ∧
    pget (runInstancesParams b64 options token) "Action" = some "RunInstances" := by
  refine ⟨query_trace_le_one w ec2 params, ?_, ?_, ?_,
    runInstancesParams_Action b64 options token⟩
  · simp only [RunInstances]
    split
    · simp
    · exact query_trace_le_one ..
  · unfold makeParams
    exact pget_pset_self ..
  · intro k hk
    unfold makeParams
    rw [pget_pset_ne _ _ hk]
    rfl

theorem client_no_retry_witness :
    pget (makeParams "DescribeInstances") "ImageId" = none :=
  (client_no_retry demoWorld demoEC2 [] "DescribeInstances" demoOptions
    (fun _ => "") "tok").2.2.2.1 "ImageId" (by decide)

/-- C8: `RunInstances` normalizes the instance counts: both zero sends
`MinCount=1, MaxCount=1`; only `MaxCount` zero sends `MaxCount` equal to
`options.MinCount`; otherwise both values are sent unchanged. -/
theorem runInstances_minmax (b64 : List Nat → String) (options : RunInstancesOptions)
    (token : String) :
    (options.MinCount = 0 ∧ options.MaxCount = 0 →
      pget (runInstancesParams b64 options token) "MinCount" = some (toString (1 : Int)) ∧
      pget (runInstancesParams b64 options token) "MaxCount" = some (toString (1 : Int))) ∧
    (options.MaxCount = 0 → ¬(options.MinCount = 0 ∧ options.MaxCount = 0) →
      pget (runInstancesParams b64 options token) "MinCount" =
        some (toString options.MinCount) ∧
      pget (runInstancesParams b64 options token) "MaxCount" =
        some (toString options.MinCount)) ∧
    (options.MaxCount ≠ 0 →
      pget (runInstancesParams b64 options token) "MinCount" =
        some (toString options.MinCount) ∧
      pget (runInstancesParams b64 options token) "MaxCount" =
        some (toString options.MaxCount)) := by
  refine ⟨fun h => ?_, fun hmax hnot => ?_, fun hmax => ?_⟩
  · rw [runInstancesParams_MinCount, runInstancesParams_MaxCount]
    unfold riMM
    rw [if_pos h]
    exact ⟨rfl, rfl⟩
  · rw [runInstancesParams_MinCount, runInstancesParams_MaxCount]
    unfold riMM
    rw [if_neg hnot, if_pos hmax]
    exact ⟨rfl, rfl⟩
  · rw [runInstancesParams_MinCount, runInstancesParams_MaxCount]
    unfold riMM
    rw [if_neg (fun hc => hmax hc.2), if_neg hmax]
    exact ⟨rfl, rfl⟩

theorem runInstances_minmax_witness :
    pget (runInstancesParams (fun _ => "") demoOptions "tok") "MinCount" =
      some (toString (1 : Int)) ∧
    pget (runInstancesParams (fun _ => "") demoOptions "tok") "MaxCount" =
      some (toString (1 : Int)) :=
  (runInstances_minmax (fun _ => "") demoOptions "tok").1 ⟨rfl, rfl⟩

/-- C9: with a non-empty `SubnetId` and `AssociatePublicIpAddress`,
`RunInstances` emits the subnet and the security groups under the
`NetworkInterface.0` prefix, sending only groups with a non-empty `Id`
(name-only groups are dropped); otherwise groups with an `Id` go to
`SecurityGroupId.i` and the others to `SecurityGroup.j`, each with its own
1-based counter in the order given. -/
theorem runInstances_security_groups (b64 : List Nat → String)
    (options : RunInstancesOptions) (token : String) :
    (options.SubnetId ≠ "" ∧ options.AssociatePublicIpAddress →
      pget (runInstancesParams b64 options token) "NetworkInterface.0.DeviceIndex" =
        some "0" ∧
      pget (runInstancesParams b64 options token)
        "NetworkInterface.0.AssociatePublicIpAddress" = some "true" ∧
      pget (runInstancesParams b64 options token) "NetworkInterface.0.SubnetId" =
        some options.SubnetId ∧
      pget (runInstancesParams b64 options token) "SubnetId" = none ∧
      (∀ k g, (options.SecurityGroups.filter (fun g0 => g0.Id ≠ ""))[k]? = some g →
        pget (runInstancesParams b64 options token)
          ("NetworkInterface.0.SecurityGroupId." ++ Nat.repr (k + 1)) = some g.Id) ∧
      (∀ n, pget (runInstancesParams b64 options token)
        ("SecurityGroupId." ++ Nat.repr n) = none) ∧
      (∀ n, pget (runInstancesParams b64 options token)
        ("SecurityGroup." ++ Nat.repr n) = none)) ∧
    (¬(options.SubnetId ≠ "" ∧ options.AssociatePublicIpAddress) →
      (∀ k g, (options.SecurityGroups.filter (fun g0 => g0.Id ≠ ""))[k]? = some g →
        pget (runInstancesParams b64 options token)
          ("SecurityGroupId." ++ Nat.repr (k + 1)) = some g.Id) ∧
      (∀ k g, (options.SecurityGroups.filter (fun g0 => g0.Id = ""))[k]? = some g →
        pget (runInstancesParams b64 options token)
          ("SecurityGroup." ++ Nat.repr (k + 1)) = some g.Name) ∧
      (∀ n, pget (runInstancesParams b64 options token)
        ("NetworkInterface.0.SecurityGroupId." ++ Nat.repr n) = none)) := by
  constructor
  · intro hc
    obtain ⟨p1, p2, p3, p4, p5, p6, p7⟩ :=
      riSubnetGroups_pos_facts options (riPreGroups b64 options (riCoreParams options token)) hc
    refine ⟨?_, ?_, ?_, ?_, ?_, ?_, ?_⟩
    · rw [pget_runInstancesParams_to_subnet b64 options token (by decide) (by decide)
          (by decide) (by decide) (by decide) (by decide)
          (fun r => Ne.symm (strAppend_ne_right _ _ (by decide) r))]
      exact p1
    · rw [pget_runInstancesParams_to_subnet b64 options token (by decide) (by decide)
          (by decide) (by decide) (by decide) (by decide)
          (fun r => Ne.symm (strAppend_ne_right _ _ (by decide) r))]
      exact p2
    · rw [pget_runInstancesParams_to_subnet b64 options token (by decide) (by decide)
          (by decide) (by decide) (by decide) (by decide)
          (fun r => Ne.symm (strAppend_ne_right _ _ (by decide) r))]
      exact p3
    · rw [pget_runInstancesParams_to_subnet b64 options token (by decide) (by decide)
          (by decide) (by decide) (by decide) (by decide)
          (fun r => Ne.symm (strAppend_ne_right _ _ (by decide) r)), p4,
        riPreGroups_frame _ _ _ (by decide) (by decide) (by decide) (by decide) (by decide)
          (by decide) (by decide) (by decide)]
      exact pget_riCoreParams_none options token (by decide) (by decide) (by decide)
        (by decide) (by decide) (by decide)
    · intro k g hkg
      rw [pget_runInstancesParams_to_subnet b64 options token
          (strAppend_ne_right _ _ (by decide) _) (strAppend_ne_right _ _ (by decide) _)
          (strAppend_ne_right _ _ (by decide) _) (strAppend_ne_right _ _ (by decide) _)
          (strAppend_ne_right _ _ (by decide) _) (strAppend_ne_right _ _ (by decide) _)
          (fun r => strAppend_ne _ _ (by decide) _ r)]
      exact p5 k g hkg
    · intro n
      rw [pget_runInstancesParams_to_subnet b64 options token
          (strAppend_ne_right _ _ (by decide) _) (strAppend_ne_right _ _ (by decide) _)
          (strAppend_ne_right _ _ (by decide) _) (strAppend_ne_right _ _ (by decide) _)
          (strAppend_ne_right _ _ (by decide) _) (strAppend_ne_right _ _ (by decide) _)
          (fun r => strAppend_ne _ _ (by decide) _ r), p6 n,
        riPreGroups_frame _ _ _ (strAppend_ne_right _ _ (by decide) _)
          (strAppend_ne_right _ _ (by decide) _) (strAppend_ne_right _ _ (by decide) _)
          (strAppend_ne_right _ _ (by decide) _) (strAppend_ne_right _ _ (by decide) _)
          (strAppend_ne_right _ _ (by decide) _) (strAppend_ne_right _ _ (by decide) _)
          (strAppend_ne_right _ _ (by decide) _)]
      exact pget_riCoreParams_none options token (strAppend_ne_right _ _ (by decide) _)
        (strAppend_ne_right _ _ (by decide) _) (strAppend_ne_right _ _ (by decide) _)
        (strAppend_ne_right _ _ (by decide) _) (strAppend_ne_right _ _ (by decide) _)
        (strAppend_ne_right _ _ (by decide) _)
    · intro n
      rw [pget_runInstancesParams_to_subnet b64 options token
          (strAppend_ne_right _ _ (by decide) _) (strAppend_ne_right _ _ (by decide) _)
          (strAppend_ne_right _ _ (by decide) _) (strAppend_ne_right _ _ (by decide) _)
          (strAppend_ne_right _ _ (by decide) _) (strAppend_ne_right _ _ (by decide) _)
          (fun r => strAppend_ne _ _ (by decide) _ r), p7 n,
        riPreGroups_frame _ _ _ (strAppend_ne_right _ _ (by decide) _)
          (strAppend_ne_right _ _ (by decide) _) (strAppend_ne_right _ _ (by decide) _)
          (strAppend_ne_right _ _ (by decide) _) (strAppend_ne_right _ _ (by decide) _)
          (strAppend_ne_right _ _ (by decide) _) (strAppend_ne_right _ _ (by decide) _)
          (strAppend_ne_right _ _ (by decide) _)]
      exact pget_riCoreParams_none options token (strAppend_ne_right _ _ (by decide) _)
        (strAppend_ne_right _ _ (by decide) _) (strAppend_ne_right _ _ (by decide) _)
        (strAppend_ne_right _ _ (by decide) _) (strAppend_ne_right _ _ (by decide) _)
        (strAppend_ne_right _ _ (by decide) _)
  · intro hc
    obtain ⟨p1, p2, p3⟩ :=
      riSubnetGroups_neg_facts options (riPreGroups b64 options (riCoreParams options token)) hc
    refine ⟨?_, ?_, ?_⟩
    · intro k g hkg
      rw [pget_runInstancesParams_to_subnet b64 options token
          (strAppend_ne_right _ _ (by decide) _) (strAppend_ne_right _ _ (by decide) _)
          (strAppend_ne_right _ _ (by decide) _) (strAppend_ne_right _ _ (by decide) _)
          (strAppend_ne_right _ _ (by decide) _) (strAppend_ne_right _ _ (by decide) _)
          (fun r => strAppend_ne _ _ (by decide) _ r)]
      exact p1 k g hkg
    · intro k g hkg
      rw [pget_runInstancesParams_to_subnet b64 options token
          (strAppend_ne_right _ _ (by decide) _) (strAppend_ne_right _ _ (by decide) _)
          (strAppend_ne_right _ _ (by decide) _) (strAppend_ne_right _ _ (by decide) _)
          (strAppend_ne_right _ _ (by decide) _) (strAppend_ne_right _ _ (by decide) _)
          (fun r => strAppend_ne _ _ (by decide) _ r)]
      exact p2 k g hkg
    · intro n
      rw [pget_runInstancesParams_to_subnet b64 options token
          (strAppend_ne_right _ _ (by decide) _) (strAppend_ne_right _ _ (by decide) _)
          (strAppend_ne_right _ _ (by decide) _) (strAppend_ne_right _ _ (by decide) _)
          (strAppend_ne_right _ _ (by decide) _) (strAppend_ne_right _ _ (by decide) _)
          (fun r => strAppend_ne _ _ (by decide) _ r), p3 n,
        riPreGroups_frame _ _ _ (strAppend_ne_right _ _ (by decide) _)
          (strAppend_ne_right _ _ (by decide) _) (strAppend_ne_right _ _ (by decide) _)
          (strAppend_ne_right _ _ (by decide) _) (strAppend_ne_right _ _ (by decide) _)
          (strAppend_ne_right _ _ (by decide) _) (strAppend_ne_right _ _ (by decide) _)
          (strAppend_ne_right _ _ (by decide) _)]
      exact pget_riCoreParams_none options token (strAppend_ne_right _ _ (by decide) _)
        (strAppend_ne_right _ _ (by decide) _) (strAppend_ne_right _ _ (by decide) _)
        (strAppend_ne_right _ _ (by decide) _) (strAppend_ne_right _ _ (by decide) _)
        (strAppend_ne_right _ _ (by decide) _)

theorem runInstances_security_groups_witness :
    pget (runInstancesParams (fun _ => "") demoOptions "tok") ("SecurityGroupId." ++ Nat.repr 1) =
      some "sg-1" ∧
    pget (runInstancesParams (fun _ => "") demoOptions "tok") ("SecurityGroup." ++ Nat.repr 1) =
      some "db" :=
  ⟨((runInstances_security_groups (fun _ => "") demoOptions "tok").2 (by decide)).1 0
      { Id := "sg-1", Name := "web" } rfl,
    ((runInstances_security_groups (fun _ => "") demoOptions "tok").2 (by decide)).2.1 0
      { Id := "", Name := "db" } rfl⟩

/-- C10: an error-free `clientToken` is the hex encoding of the 32 random
bytes — a 64-character string of hex digits, within the 64-byte limit;
`RunInstances` always sends it as `ClientToken` and aborts without issuing
any request when token generation fails. -/
theorem clientToken_hex_spec {β ρ : Type} (w : World β ρ) (ec2 : EC2M)
    (options : RunInstancesOptions)
    (hrand : ∀ bs, w.randRead 32 = Except.ok bs → bs.length = 32 ∧ ∀ b ∈ bs, b < 256) :
    (∀ tok, clientToken w = Except.ok tok →
      tok.length = 64 ∧ tok.length ≤ 64 ∧ (∀ c ∈ tok.data, c ∈ hexChars) ∧
      ∃ bs, w.randRead 32 = Except.ok bs ∧ bs.length = 32 ∧ tok = hexEncodeToString bs) ∧
    (∀ tok, pget (runInstancesParams w.b64Encode options tok) "ClientToken" = some tok) ∧
    (∀ e, clientToken w = Except.error e →
      RunInstances w ec2 options = (Except.error (QueryError.goError e), [])) := by
  refine ⟨?_, fun tok => runInstancesParams_ClientToken w.b64Encode options tok, ?_⟩
  · intro tok htok
    unfold clientToken at htok
    cases hr : w.randRead 32 with
    | error e => rw [hr] at htok; cases htok
    | ok bs =>
        rw [hr] at htok
        have htok2 : hexEncodeToString bs = tok := by simpa using htok
        obtain ⟨hlen, hmem⟩ := hrand bs hr
        subst htok2
        have hl : (hexEncodeToString bs).length = 64 := by
          show (hexEncode bs).length = 64
          rw [hexEncode_length, hlen]
        refine ⟨hl, by omega, ?_, bs, rfl, hlen, rfl⟩
        intro c hc
        exact hexEncode_mem bs hmem c hc
  · intro e he
    simp only [RunInstances, he]

theorem clientToken_hex_spec_witness :
    (hexEncodeToString (List.replicate 32 0)).length = 64 :=
  ((clientToken_hex_spec demoWorld demoEC2 demoOptions
      (fun bs h => by
        simp only [demoWorld, Except.ok.injEq] at h
        subst h
        refine ⟨by simp, fun b hb => ?_⟩
        rw [List.eq_of_mem_replicate hb]
        omega)).1
    (hexEncodeToString (List.replicate 32 0)) rfl).1

/-- C4: `addParamsList` sets exactly the keys `label.(i+1)` to `ids[i]`
(1-based, in list order) and touches no other key; `addBlockDeviceParams`
emits each block device under `prefix ++ "BlockDeviceMapping." ++ (i+1) ++ "."`
with 1-based indices, emitting each sub-key only when the corresponding
field is non-zero. -/
theorem addParams_list_blockdevice_spec :
    (∀ (ps : Params) (label : String) (ids : List String),
      (∀ i v, ids[i]? = some v →
        pget (addParamsList ps label ids) ((label ++ ".") ++ Nat.repr (i + 1)) = some v) ∧
      (∀ q, (∀ i, i < ids.length → q ≠ (label ++ ".") ++ Nat.repr (i + 1)) →
        pget (addParamsList ps label ids) q = pget ps q)) ∧
    (∀ (prename : String) (ps : Params) (bds : List BlockDeviceMapping) (i : Nat)
        (k : BlockDeviceMapping), bds[i]? = some k →
      ∀ s ∈ bdmSubKeys,
        pget (addBlockDeviceParams prename ps bds)
            ((prename ++ "BlockDeviceMapping." ++ Nat.repr (i + 1) ++ ".") ++ s) =
          (bdmSubValue k s).or
            (pget ps ((prename ++ "BlockDeviceMapping." ++ Nat.repr (i + 1) ++ ".") ++ s))) := by
  constructor
  · intro ps label ids
    constructor
    · intro i v hv
      have h2 := addParamsListFrom_get label ids 0 ps i v hv
      simpa using h2
    · intro q hq
      exact addParamsListFrom_frame label ids 0 ps q (fun i hi => by simpa using hq i hi)
  · intro prename ps bds i k hk s hs
    have h2 := addBDPFrom_sub prename bds 0 ps i k s hk hs
    simpa using h2

theorem addParams_list_blockdevice_spec_witness :
    pget (addParamsList [] "InstanceId" ["i-1", "i-2"]) (("InstanceId" ++ ".") ++ Nat.repr 2) =
      some "i-2" ∧
    pget (addBlockDeviceParams "" [] [demoBdm])
        (("" ++ "BlockDeviceMapping." ++ Nat.repr 1 ++ ".") ++ "DeviceName") =
      (bdmSubValue demoBdm "DeviceName").or none :=
  ⟨(addParams_list_blockdevice_spec.1 [] "InstanceId" ["i-1", "i-2"]).1 1 "i-2" rfl,
    addParams_list_blockdevice_spec.2 "" [] [demoBdm] 0 demoBdm rfl "DeviceName" (by decide)⟩

/-- C3: for a non-nil `Filter` with distinct names, `addParams` emits the
names in ascending lexicographic order under consecutive 1-based indices
(`Filter.i.Name`, `Filter.i.Value.j`), adds no other key, leaves the map
unchanged for a nil receiver, and depends only on the filter's contents
(invariance under reordering of the underlying entries, hence of the order
of `Add` calls). -/
theorem filter_addParams_spec (f : Filter) (params : Params)
    (hnd : (filterKeys f).Nodup) :
    List.Sorted (fun a b => a ≤ b) (sortedFilterKeys f) ∧
    (∀ i k, (sortedFilterKeys f)[i]? = some k →
      pget (Filter.addParams (some f) params) (("Filter." ++ Nat.repr (i + 1)) ++ ".Name") =
        some k ∧
      (∀ j v, (lookupF f.m k)[j]? = some v →
        pget (Filter.addParams (some f) params)
          ((("Filter." ++ Nat.repr (i + 1)) ++ ".Value.") ++ Nat.repr (j + 1)) = some v)) ∧
    (∀ q, (∀ i k, (sortedFilterKeys f)[i]? = some k →
        q ≠ ("Filter." ++ Nat.repr (i + 1)) ++ ".Name" ∧
        ∀ j, j < (lookupF f.m k).length →
          q ≠ (("Filter." ++ Nat.repr (i + 1)) ++ ".Value.") ++ Nat.repr (j + 1)) →
      pget (Filter.addParams (some f) params) q = pget params q) ∧
    Filter.addParams none params = params ∧
    (∀ g : Filter, f.m.Perm g.m →
      Filter.addParams (some f) params = Filter.addParams (some g) params) := by
  simp only [Filter.addParams]
  refine ⟨?_, ?_, ?_, trivial, ?_⟩
  · unfold sortedFilterKeys
    exact List.sorted_mergeSort' (filterKeys f)
  · intro i k hk
    constructor
    · have h2 := emitFilterNames_name f.m (sortedFilterKeys f) 0 params i k hk
      simpa using h2
    · intro j v hv
      have h2 := emitFilterNames_value f.m (sortedFilterKeys f) 0 params i k j v hk hv
      simpa using h2
  · intro q hq
    exact emitFilterNames_frame f.m (sortedFilterKeys f) 0 params q
      (fun i k hik => by
        obtain ⟨ha, hb⟩ := hq i k hik
        exact ⟨by simpa using ha, fun j hj => by simpa using hb j hj⟩)
  · intro g hp
    rw [← sortedFilterKeys_perm_eq hp]
    exact emitFilterNames_congr f.m g.m _ 0 params (fun k _ => lookupF_perm hp hnd k)

theorem filter_addParams_spec_witness : Filter.addParams none [] = [] :=
  (filter_addParams_spec demoFilter [] (by decide)).2.2.2.1

/-- C6: `TestFileInfoSaveGet` passes only if `Save` assigned a non-empty
`Id` to the first saved record, `Get` returned that record, and `Get`
returned an error — not the record — for the record saved with
`DeleteAt = 123`; a successful `Get` on the deleted record fails the test. -/
theorem testFileInfoSaveGet_passes_only_if {σ : Type} (st : FileInfoStore σ) (s0 : σ)
    (cid1 cid2 : String) (hp : testFileInfoSaveGet st s0 cid1 cid2 = true) :
    ∃ s1 r1 s2 r2 s3 info2 s4 e,
      st.Save s0 { emptyFileInfo with CreatorId := cid1, Path := "file.txt" } =
        (s1, Except.ok r1) ∧
      r1.Id.length ≠ 0 ∧
      st.Get s1 r1.Id = (s2, Except.ok r2) ∧ r2.Id = r1.Id ∧
      st.Save s2 { emptyFileInfo with CreatorId := cid2, Path := "file.txt", DeleteAt := 123 } =
        (s3, Except.ok info2) ∧
      st.Get s3 info2.Id = (s4, Except.error e) := by
  unfold testFileInfoSaveGet at hp
  split at hp
  next heq1 => simp at hp
  next s1 returned heq1 =>
    split at hp
    next hlen => simp at hp
    next hlen =>
      split at hp
      next heq2 => simp at hp
      next s2 r2 heq2 =>
        split at hp
        next hne => simp at hp
        next hne =>
          split at hp
          next heq3 => simp at hp
          next s3 info2 heq3 =>
            split at hp
            next s4 e heq4 =>
              exact ⟨s1, returned, s2, r2, s3, info2, s4, e, heq1, hlen, heq2,
                not_not.mp hne, heq3, heq4⟩
            next heq4 => simp at hp

theorem testFileInfoSaveGet_witness :
    ∃ s1 r1 s2 r2 s3 info2 s4 e,
      demoStore.Save ([], 0) { emptyFileInfo with CreatorId := "u1", Path := "file.txt" } =
        (s1, Except.ok r1) ∧
      r1.Id.length ≠ 0 ∧
      demoStore.Get s1 r1.Id = (s2, Except.ok r2) ∧ r2.Id = r1.Id ∧
      demoStore.Save s2 { emptyFileInfo with CreatorId := "u2", Path := "file.txt", DeleteAt := 123 } =
        (s3, Except.ok info2) ∧
      demoStore.Get s3 info2.Id = (s4, Except.error e) :=
  testFileInfoSaveGet_passes_only_if demoStore ([], 0) "u1" "u2" (by decide)

/-- C7: `TestFileInfoDeleteForPost` passes only if, after the four saves
(two live records on the post, one with `DeleteAt = 123`, one on another
post) and a successful `DeleteForPost`, `GetForPost` returns the empty
list. -/
theorem testFileInfoDeleteForPost_passes_only_if {σ : Type} (st : FileInfoStore σ) (s0 : σ)
    (userId postId otherPostId : String)
    (hp : testFileInfoDeleteForPost st s0 userId postId otherPostId = true) :
    ∃ s1 a s2 b s3 c s4 d s5 u s6 infos,
      st.Save s0 { emptyFileInfo with PostId := postId, CreatorId := userId, Path := "file.txt" } = (s1, Except.ok a) ∧
      st.Save s1 { emptyFileInfo with PostId := postId, CreatorId := userId, Path := "file.txt" } = (s2, Except.ok b) ∧
      st.Save s2 { emptyFileInfo with PostId := postId, CreatorId := userId, Path := "file.txt", DeleteAt := 123 } = (s3, Except.ok c) ∧
      st.Save s3 { emptyFileInfo with PostId := otherPostId, CreatorId := userId, Path := "file.txt" } = (s4, Except.ok d) ∧
      st.DeleteForPost s4 postId = (s5, Except.ok u) ∧
      st.GetForPost s5 postId = (s6, Except.ok infos) ∧ infos = [] := by
  unfold testFileInfoDeleteForPost at hp
  split at hp
  next heq1 => simp at hp
  next s1 a heq1 =>
    split at hp
    next heq2 => simp at hp
    next s2 b heq2 =>
      split at hp
      next heq3 => simp at hp
      next s3 c heq3 =>
        split at hp
        next heq4 => simp at hp
        next s4 d heq4 =>
          split at hp
          next heq5 => simp at hp
          next s5 u heq5 =>
            split at hp
            next heq6 => simp at hp
            next s6 infos heq6 =>
              have hlen : infos.length = 0 := by simpa using hp
              exact ⟨s1, a, s2, b, s3, c, s4, d, s5, u, s6, infos, heq1, heq2, heq3,
                heq4, heq5, heq6, List.length_eq_zero.mp hlen⟩

theorem testFileInfoDeleteForPost_witness :
    ∃ s1 a s2 b s3 c s4 d s5 u s6 infos,
      demoStore.Save ([], 0) { emptyFileInfo with PostId := "p1", CreatorId := "u1", Path := "file.txt" } = (s1, Except.ok a) ∧
      demoStore.Save s1 { emptyFileInfo with PostId := "p1", CreatorId := "u1", Path := "file.txt" } = (s2, Except.ok b) ∧
      demoStore.Save s2 { emptyFileInfo with PostId := "p1", CreatorId := "u1", Path := "file.txt", DeleteAt := 123 } = (s3, Except.ok c) ∧
      demoStore.Save s3 { emptyFileInfo with PostId := "p2", CreatorId := "u1", Path := "file.txt" } = (s4, Except.ok d) ∧
      demoStore.DeleteForPost s4 "p1" = (s5, Except.ok u) ∧
      demoStore.GetForPost s5 "p1" = (s6, Except.ok infos) ∧ infos = [] :=
  testFileInfoDeleteForPost_passes_only_if demoStore ([], 0) "u1" "p1" "p2" (by decide)

end Platform
